import Mathlib

/-!
Verification development for the kiro-forge power/agent/collection core:
the matcher/scorer and router (`src/kiroforge/router.py`), the resource
merge engine and constraint resolution (`src/kiroforge/exporter.py`), and
the specification loader/validator (`src/kiroforge/models.py`,
`src/kiroforge/parser.py`).

Modelling conventions:
* Python strings are `String`; ASCII semantics are assumed for
  lower-casing and word-character classification (the specification
  documents and identifiers handled by the tool are ASCII).
* Python `int` is `ℤ`; the float similarity/overlap ratios are modelled as
  exact rationals `ℚ` (difflib's ratio is mathematically `2M/T ∈ [0,1]`);
  `int(x)` on a non-negative value is truncating division `pyInt`.
* Python dicts that the code iterates or updates are insertion-ordered
  association lists (`alookup` / `aset` reproduce `d[k]` / `d[k] = v`).
* Python sets materialized by `list(set(..) & set(..))` have unspecified
  iteration order; they are modelled as canonical duplicate-free lists and
  all theorems about them compare elementwise membership (as finite sets).
* `difflib.SequenceMatcher(..).ratio()` and `fnmatch.fnmatch` are Python
  standard-library collaborators external to the repository; they are
  passed as explicit function parameters (`ratio`, `fm`).
* Filesystem reads are a `FileSys` record of pure lookup functions; a
  `none` result models a missing or unreadable path (the code treats both
  the same way at every site modelled here, except where noted).
-/

/-! ## Generic string and association-list helpers -/

/-- Boolean list-prefix test (`==` on elements). -/
def listIsPrefixB : List Char → List Char → Bool
  | [], _ => true
  | _ :: _, [] => false
  | a :: as, b :: bs => a == b && listIsPrefixB as bs

/-- Boolean list-infix test: Python's substring operator `needle in hay`. -/
def listIsInfixB : List Char → List Char → Bool
  | needle, [] => needle.isEmpty
  | needle, h :: t => listIsPrefixB needle (h :: t) || listIsInfixB needle t

/-- Python `needle in hay` on strings. -/
def strContains (hay needle : String) : Bool :=
  listIsInfixB needle.data hay.data

/-- Python `s.startswith(pre)`. -/
def strStartsWith (s pre : String) : Bool :=
  listIsPrefixB pre.data s.data

/-- Python `s.endswith(suf)` (equivalently, `re.search(suf ++ "$", s)` for a
literal suffix pattern). -/
def strEndsWith (s suf : String) : Bool :=
  listIsPrefixB suf.data.reverse s.data.reverse

/-- Lookup in an insertion-ordered association list: Python `d.get(k)` /
`k in d`. -/
def alookup {α : Type} : List (String × α) → String → Option α
  | [], _ => none
  | (k, v) :: t, key => if k = key then some v else alookup t key

/-- Python dict assignment `d[k] = v`: replaces the value in place if the
key is present (keeping its position), otherwise appends. -/
def aset {α : Type} : List (String × α) → String → α → List (String × α)
  | [], key, val => [(key, val)]
  | (k, v) :: t, key, val =>
    if k = key then (k, val) :: t else (k, v) :: aset t key val

/-- Whether an `Except` computation succeeded. -/
def exceptOk {ε α : Type} : Except ε α → Bool
  | .ok _ => true
  | .error _ => false

instance {ε α : Type} [DecidableEq ε] [DecidableEq α] :
    DecidableEq (Except ε α) := fun x y =>
  match x, y with
  | .ok a, .ok b =>
    if h : a = b then isTrue (by rw [h])
    else isFalse (fun g => h (Except.ok.inj g))
  | .error a, .error b =>
    if h : a = b then isTrue (by rw [h])
    else isFalse (fun g => h (Except.error.inj g))
  | .ok _, .error _ => isFalse (fun g => Except.noConfusion g)
  | .error _, .ok _ => isFalse (fun g => Except.noConfusion g)

/-! ## Matcher/Scorer (`router.py`) -/

/-- Python `s.lower()` for ASCII text (character-wise lower-casing). -/
def pyLower (s : String) : String := ⟨s.data.map Char.toLower⟩

/-- Split a character list on a separator character (the list of chunks
between separators, like Python `s.split(sep)` for one-char separators). -/
def splitOnChar (c : Char) : List Char → List (List Char)
  | [] => [[]]
  | x :: xs =>
    match splitOnChar c xs with
    | [] => [[]]
    | r :: rs => if x == c then [] :: r :: rs else (x :: r) :: rs

/-- A word character for Python's `re` on ASCII text: `[a-zA-Z0-9_]`. -/
def pyWordChar (c : Char) : Bool := c.isAlphanum || c == '_'

/-- Accumulator-based splitter extracting maximal runs of word characters. -/
def wordRunsAux : List Char → List Char → List String
  | [], acc => if acc.isEmpty then [] else [String.mk acc.reverse]
  | c :: cs, acc =>
    if pyWordChar c then wordRunsAux cs (c :: acc)
    else if acc.isEmpty then wordRunsAux cs []
    else String.mk acc.reverse :: wordRunsAux cs []

/-- Maximal word-character runs of a string. -/
def wordRuns (s : String) : List String := wordRunsAux s.data []

/-- The stop-word list of `_extract_keywords`. -/
def stop_words : List String :=
  ["the", "a", "an", "and", "or", "but", "in", "on", "at", "to", "for",
   "of", "with", "by", "is", "are", "was", "were", "be", "been", "have",
   "has", "had", "do", "does", "did", "will", "would", "could", "should"]

/-- `_extract_keywords`: `re.findall(r"\b[a-zA-Z0-9]+\b", text.lower())`
keeps exactly the maximal word-character runs that consist purely of
alphanumerics (a run containing `_` has no word boundary inside it), then
drops stop words and words of length ≤ 2. The result is a set. -/
def extract_keywords (text : String) : Finset String :=
  ((wordRuns (pyLower text)).filter
    (fun w => w.data.all Char.isAlphanum && decide (2 < w.length)
      && !(stop_words.contains w))).toFinset

/-- `_score_keyword_overlap`: Jaccard similarity, `0` when either set is
empty (and guarding a zero denominator as the source does). -/
def score_keyword_overlap (a b : Finset String) : ℚ :=
  if a = ∅ ∨ b = ∅ then 0
  else if (a ∪ b).card = 0 then 0
  else ((a ∩ b).card : ℚ) / ((a ∪ b).card : ℚ)

/-- Python `int(q)` for the non-negative ratios used by the scorer:
truncating division of numerator by denominator. -/
def pyInt (q : ℚ) : ℤ := q.num / (q.den : ℤ)

/-- Fixed 2-decimal formatting used in reason tags, modelling Python's
`f"{x:.2f}"` (rounding here is half-up; the float formatter's half-even
tie behaviour differs only on exact ties and only inside reason-tag text,
which no theorem equates with a literal). -/
def fmt2 (q : ℚ) : String :=
  let c : ℤ := ⌊q * 100 + 1 / 2⌋
  let w := c / 100
  let f := c % 100
  toString w ++ "." ++ (if f < 10 then "0" ++ toString f else toString f)

/-- `_calculate_similarity`: difflib's ratio on the lower-cased inputs,
with the ratio function itself supplied as an external collaborator. -/
def calculate_similarity (ratio : String → String → ℚ) (t1 t2 : String) : ℚ :=
  ratio (pyLower t1) (pyLower t2)

structure RouteMatch where
  name : String
  score : ℤ
  reasons : List String
  deriving DecidableEq, Repr

/-- One section of `score_power`: fold a per-item contribution
(points, reason tags) over a trigger list, mirroring the source's
`score += ...; reasons.append(...)` loop. -/
def sectionFold {α : Type} (f : α → ℤ × List String) :
    List α → ℤ × List String → ℤ × List String
  | [], acc => acc
  | x :: xs, acc => sectionFold f xs (acc.1 + (f x).1, acc.2 ++ (f x).2)

/-- Contribution of a single trigger phrase: exact substring match gives
10 points and an `exact_phrase` tag; otherwise a fuzzy similarity above
0.6 gives `int(similarity * 5)` points and a `fuzzy_phrase` tag. -/
def phraseContrib (ratio : String → String → ℚ) (prompt_lower phrase : String) :
    ℤ × List String :=
  let phrase_lower := pyLower phrase
  if strContains prompt_lower phrase_lower then
    (10, ["exact_phrase:" ++ phrase])
  else
    let similarity := calculate_similarity ratio phrase_lower prompt_lower
    if (6 : ℚ) / 10 < similarity then
      (pyInt (similarity * 5),
       ["fuzzy_phrase:" ++ phrase ++ "(" ++ fmt2 similarity ++ ")"])
    else (0, [])

/-- Contribution of a single trigger domain: exact substring match gives 5
points; otherwise keyword overlap above 0.3 gives `int(overlap * 3)`. -/
def domainContrib (prompt_lower : String) (prompt_keywords : Finset String)
    (domain : String) : ℤ × List String :=
  if strContains prompt_lower (pyLower domain) then
    (5, ["exact_domain:" ++ domain])
  else
    let domain_keywords := extract_keywords domain
    let overlap := score_keyword_overlap prompt_keywords domain_keywords
    if (3 : ℚ) / 10 < overlap then
      (pyInt (overlap * 3),
       ["keyword_domain:" ++ domain ++ "(" ++ fmt2 overlap ++ ")"])
    else (0, [])

/-- Contribution of a single file glob pattern: `min(2 * matches, 8)`
points when at least one supplied file matches. -/
def fileContrib (fm : String → String → Bool) (files : List String)
    (pattern : String) : ℤ × List String :=
  let c := files.countP (fun f => fm f pattern)
  if 0 < c then
    (min ((c : ℤ) * 2) 8, ["files:" ++ pattern ++ "(" ++ toString c ++ ")"])
  else (0, [])

structure PowerMeta where
  name : String
  description : String
  deriving DecidableEq, Repr

structure PowerTrigger where
  phrases : List String
  domains : List String
  files : List String
  deriving DecidableEq, Repr

structure PowerResources where
  steering_files : List String
  tools_files : List String
  deriving DecidableEq, Repr

structure PowerSpec where
  meta : PowerMeta
  triggers : PowerTrigger
  resources : PowerResources
  deriving DecidableEq, Repr

/-- The file-pattern section of `score_power`: skipped when `files` is
`None` or empty (Python truthiness). -/
def filesSection (fm : String → String → Bool) (files : Option (List String))
    (patterns : List String) (acc : ℤ × List String) : ℤ × List String :=
  match files with
  | none => acc
  | some fl =>
    if fl.isEmpty then acc
    else sectionFold (fileContrib fm fl) patterns acc

/-- The semantic-description section of `score_power`: keyword overlap of
the power's description with the prompt, above a 0.2 threshold. -/
def descSection (spec : PowerSpec) (prompt_keywords : Finset String)
    (acc : ℤ × List String) : ℤ × List String :=
  if spec.meta.description ≠ "" then
    let desc_keywords := extract_keywords spec.meta.description
    let desc_overlap := score_keyword_overlap prompt_keywords desc_keywords
    if (1 : ℚ) / 5 < desc_overlap then
      (acc.1 + pyInt (desc_overlap * 4),
       acc.2 ++ ["semantic:" ++ spec.meta.name ++ "(" ++ fmt2 desc_overlap ++ ")"])
    else acc
  else acc

/-- The `trigger_completeness` bonus value. -/
def triggerCompleteness (spec : PowerSpec) : ℤ :=
  (if spec.triggers.phrases.isEmpty then 0 else 1)
  + (if spec.triggers.domains.isEmpty then 0 else 1)
  + (if spec.triggers.files.isEmpty then 0 else 1)

/-- The completeness-bonus section of `score_power`. -/
def completenessSection (spec : PowerSpec) (acc : ℤ × List String) :
    ℤ × List String :=
  if 1 < triggerCompleteness spec then
    (acc.1 + triggerCompleteness spec,
     acc.2 ++ ["completeness_bonus:" ++ toString (triggerCompleteness spec)])
  else acc

/-- `score_power`: scores a power spec against a prompt and optional file
list.  `ratio` is difflib's similarity and `fm` is `fnmatch.fnmatch`,
both external standard-library collaborators. -/
def score_power (ratio : String → String → ℚ) (fm : String → String → Bool)
    (spec : PowerSpec) (prompt : String) (files : Option (List String)) :
    RouteMatch :=
  let prompt_lower := pyLower prompt
  let prompt_keywords := extract_keywords prompt
  let s1 := sectionFold (phraseContrib ratio prompt_lower)
    spec.triggers.phrases (0, [])
  let s2 := sectionFold (domainContrib prompt_lower prompt_keywords)
    spec.triggers.domains s1
  let s3 := filesSection fm files spec.triggers.files s2
  let s4 := descSection spec prompt_keywords s3
  let s5 := completenessSection spec s4
  ⟨spec.meta.name, s5.1, s5.2⟩

/-! ## Router (`select_powers`) -/

/-- Insert into a descending-sorted list, keeping earlier elements of
equal score in front: together with `sortDesc` this is the unique stable
descending sort, the semantics of `list.sort(key=score, reverse=True)`. -/
def insertDesc (x : RouteMatch) : List RouteMatch → List RouteMatch
  | [] => [x]
  | y :: ys => if x.score < y.score then y :: insertDesc x ys else x :: y :: ys

/-- Stable descending sort by score. -/
def sortDesc : List RouteMatch → List RouteMatch
  | [] => []
  | x :: xs => insertDesc x (sortDesc xs)

/-- `select_powers`: score every spec, filter by `min_score` (inclusive),
stable-sort descending by score, truncate to `max_results`. -/
def select_powers (ratio : String → String → ℚ) (fm : String → String → Bool)
    (specs : List PowerSpec) (prompt : String) (files : Option (List String))
    (min_score : ℤ) (max_results : ℕ) : List RouteMatch :=
  let scored := specs.map (fun sp => score_power ratio fm sp prompt files)
  let ranked := scored.filter (fun m => decide (min_score ≤ m.score))
  (sortDesc ranked).take max_results

/-! ## Resource merge engine (`exporter.py`) -/

/-- The structured power-reference record (`models.PowerReference` fields,
equally the shape of a plain reference dict; absent dict keys are modelled
as the same defaults `power_data.get(key, default)` produces). -/
structure PowerRefData where
  path : String
  exclude_tools : List String
  tool_aliases : List (String × String)
  server_aliases : List (String × String)
  exclude_steering_sections : List String
  deriving DecidableEq, Repr

/-- A power reference as it reaches `_merge_power_resources`: a bare path
string, a plain dict, or a constructed pydantic `PowerReference` object.
The distinction between `dict` and `model` matters because pydantic
models support neither `obj["key"]` nor `obj.get(key, default)`. -/
inductive PRef where
  | str (path : String)
  | dict (d : PowerRefData)
  | model (d : PowerRefData)
  deriving DecidableEq, Repr

/-- `normalize_power_reference`: wraps a bare string into `{"path": s}`
and returns any other value unchanged (including pydantic model
instances, despite the `str | dict` annotation). -/
def normalize_power_reference : PRef → PRef
  | .str p => .dict ⟨p, [], [], [], []⟩
  | r => r

/-- Python `power_data["path"]` on a normalized reference: succeeds only
on a dict; subscripting a pydantic model (or a string with a string key)
raises `TypeError`. -/
def PRef.getPath : PRef → Except String String
  | .dict d => .ok d.path
  | .model _ => .error "TypeError: PowerReference object is not subscriptable"
  | .str _ => .error "TypeError: string indices must be integers"

/-- Whether `power_data["path"]` would succeed after normalization. -/
def PRef.subscriptable : PRef → Bool
  | .str _ => true
  | .dict _ => true
  | .model _ => false

/-- The path a subscriptable reference resolves to. -/
def PRef.pathOf : PRef → String
  | .str p => p
  | .dict d => d.path
  | .model d => d.path

/-- A tool definition from a power's tools file: an object with at least a
`name` field; the remaining payload is opaque and only carried along. -/
structure ToolDef where
  name : String
  payload : ℕ
  deriving DecidableEq, Repr

/-- One entry of the collision metadata lists. -/
structure Collision where
  name : String
  powers : List String
  resolution : String
  final_source : String
  deriving DecidableEq, Repr

structure CollisionMetadata where
  tool_collisions : List Collision
  server_collisions : List Collision
  steering_collisions : List Collision
  deriving DecidableEq, Repr

/-- A successfully parsed tools file: optional `tools` list and optional
`mcpServers` mapping (iterated in insertion order); server config objects
are opaque payloads. -/
structure ToolsFileData where
  tools : Option (List ToolDef)
  mcpServers : Option (List (String × ℕ))
  deriving DecidableEq, Repr

/-- The raw shape of an agent spec's constraint block before pydantic
validation runs. -/
structure RawConstraints where
  allowed_tools : List String
  denied_tools : List String
  requires_network : Bool
  opt_out_collection_constraints : Bool
  opt_out_justification : Option String
  deriving DecidableEq, Repr

structure AgentMeta where
  name : String
  description : String
  version : String
  deriving DecidableEq, Repr

structure AgentIdentity where
  prompt_file : String
  expertise : List String
  deriving DecidableEq, Repr

/-- Validated agent constraints (`models.AgentConstraints`). -/
structure AgentConstraints where
  allowed_tools : List String
  denied_tools : List String
  requires_network : Bool
  opt_out_collection_constraints : Bool
  opt_out_justification : Option String
  deriving DecidableEq, Repr

/-- Validated agent specification; the subagents/tests/compatibility
blocks are copied verbatim by every function modelled here and are
omitted from the record. -/
structure AgentSpecM where
  meta : AgentMeta
  identity : AgentIdentity
  powers : List PRef
  constraints : AgentConstraints
  deriving DecidableEq, Repr

/-- An agent spec document as parsed from YAML, before validation. -/
structure RawAgentSpec where
  meta : AgentMeta
  identity : AgentIdentity
  powers : List PRef
  constraints : RawConstraints
  deriving DecidableEq, Repr

/-- The filesystem as the pure lookup functions the core performs.
`powerSpecs` is keyed by power directory and models
`load_power_spec(power_dir / "POWER.md")` (`none` for any load failure);
`toolsYaml` models reading and YAML-parsing one tools file; `agentYaml`
models reading and YAML-parsing `agent_dir / "agent.yaml"`. -/
structure FileSys where
  fileContents : String → Option String
  dirExists : String → Bool
  powerSpecs : String → Option PowerSpec
  toolsYaml : String → Option ToolsFileData
  agentYaml : String → Option RawAgentSpec

/-- The mutable locals of one `_merge_power_resources` call. -/
structure MergeState where
  merged_tools : List ToolDef
  merged_servers : List (String × ℕ)
  steering_content : List String
  tool_collisions : List Collision
  server_collisions : List Collision
  tool_sources : List (String × String)
  server_sources : List (String × String)
  deriving DecidableEq, Repr

def initMergeState : MergeState := ⟨[], [], [], [], [], [], []⟩

/-- The fall-through part of tool processing (exporter.py lines 193-200):
apply the tool-alias mapping, then append and record the tool unless its
(possibly aliased) name is in the current power's exclude list. -/
def processToolTail (d : PowerRefData) (st : MergeState) (tool : ToolDef) :
    MergeState :=
  let tool2 := match alookup d.tool_aliases tool.name with
    | some a => { tool with name := a }
    | none => tool
  if tool2.name ∈ d.exclude_tools then st
  else
    { st with
      merged_tools := st.merged_tools ++ [tool2]
      tool_sources := aset st.tool_sources tool2.name d.path }

/-- Processing of a single tool object (exporter.py lines 180-200): a
name already recorded as sourced collides — unless it is in the current
power's exclude list — and is dropped with an `"unresolved"` collision
entry; otherwise processing falls through to `processToolTail`. -/
def processTool (d : PowerRefData) (st : MergeState) (tool : ToolDef) :
    MergeState :=
  match alookup st.tool_sources tool.name with
  | some src =>
    if tool.name ∈ d.exclude_tools then processToolTail d st tool
    else
      { st with
        tool_collisions := st.tool_collisions
          ++ [⟨tool.name, [src, d.path], "unresolved", src⟩] }
  | none => processToolTail d st tool

/-- Processing of a single MCP server entry (exporter.py lines 204-218):
the collision check uses the incoming name, while the insertion uses the
alias-mapped final name. -/
def processServer (d : PowerRefData) (st : MergeState) (kv : String × ℕ) :
    MergeState :=
  match alookup st.server_sources kv.1 with
  | some src =>
    { st with
      server_collisions := st.server_collisions
        ++ [⟨kv.1, [src, d.path], "unresolved", src⟩] }
  | none =>
    let final_server_name := (alookup d.server_aliases kv.1).getD kv.1
    { st with
      merged_servers := aset st.merged_servers final_server_name kv.2
      server_sources := aset st.server_sources final_server_name d.path }

/-- One steering file: append its content, or skip it unread. -/
def processSteering (fs : FileSys) (power_dir : String) (st : MergeState)
    (steering_file : String) : MergeState :=
  match fs.fileContents (power_dir ++ "/" ++ steering_file) with
  | some content => { st with steering_content := st.steering_content ++ [content] }
  | none => st

/-- One tools file: a read/parse failure skips the file; otherwise the
`tools` list and then the `mcpServers` mapping are processed. -/
def processToolsFile (d : PowerRefData) (st : MergeState)
    (tf : Option ToolsFileData) : MergeState :=
  match tf with
  | none => st
  | some data =>
    let st1 := match data.tools with
      | some ts => ts.foldl (processTool d) st
      | none => st
    match data.mcpServers with
    | some ms => ms.foldl (processServer d) st1
    | none => st1

/-- One power reference's contribution (exporter.py lines 152-221), given
its already-subscripted dict form. -/
def processPower (fs : FileSys) (agent_dir : String) (st : MergeState)
    (d : PowerRefData) : MergeState :=
  let power_dir := agent_dir ++ "/" ++ d.path
  if fs.dirExists power_dir then
    match fs.powerSpecs power_dir with
    | none => st
    | some ps =>
      let st1 := ps.resources.steering_files.foldl (processSteering fs power_dir) st
      ps.resources.tools_files.foldl
        (fun s tf => processToolsFile d s (fs.toolsYaml (power_dir ++ "/" ++ tf)))
        st1
  else st

/-- One iteration of the reference loop: normalize, subscript the path
(which raises on a pydantic model instance), then process the power. -/
def stepRef (fs : FileSys) (agent_dir : String) (st : MergeState) (r : PRef) :
    Except String MergeState :=
  match normalize_power_reference r with
  | .dict d => .ok (processPower fs agent_dir st d)
  | .model _ => .error "TypeError: PowerReference object is not subscriptable"
  | .str _ => .error "TypeError: string indices must be integers"

/-- The reference loop of `_merge_power_resources`. -/
def runRefs (fs : FileSys) (agent_dir : String) :
    MergeState → List PRef → Except String MergeState
  | st, [] => .ok st
  | st, r :: rest =>
    match stepRef fs agent_dir st r with
    | .ok st2 => runRefs fs agent_dir st2 rest
    | .error e => .error e

structure MergedResources where
  tools : List ToolDef
  mcp_servers : List (String × ℕ)
  steering_content : List String
  collision_metadata : CollisionMetadata
  deriving DecidableEq, Repr

/-- `_merge_power_resources`: merge tools, MCP servers and steering from
the referenced powers; `steering_collisions` is initialized and never
appended to in the source. -/
def mergePowerResources (fs : FileSys) (agent_dir : String)
    (power_refs : List PRef) : Except String MergedResources :=
  (runRefs fs agent_dir initMergeState power_refs).map fun st =>
    ⟨st.merged_tools, st.merged_servers, st.steering_content,
     ⟨st.tool_collisions, st.server_collisions, []⟩⟩

/-! ## Agent export (`export_agent_to_kiro_json`) -/

/-- `_build_constraint_metadata`, flattened. -/
structure ConstraintMetadata where
  collection_constraints_applied : Bool
  opt_out : Bool
  opt_out_justification : Option String
  final_allowed_tools : List String
  final_denied_tools : List String
  agent_requested : Bool
  final_resolution : Bool
  resolution_reason : String
  deriving DecidableEq, Repr

def build_constraint_metadata (c : AgentConstraints) : ConstraintMetadata :=
  ⟨!c.opt_out_collection_constraints, c.opt_out_collection_constraints,
   c.opt_out_justification, c.allowed_tools, c.denied_tools,
   c.requires_network, c.requires_network,
   if c.opt_out_collection_constraints then "Agent setting"
   else "Collection policy applied"⟩

/-- The exported Kiro JSON object (timestamp and static version fields
aside). -/
structure KiroExport where
  name : String
  description : String
  prompt : String
  tools : List ToolDef
  mcpServers : List (String × ℕ)
  allowedTools : List String
  disabledTools : List String
  version : String
  source_agent : String
  source_powers : List String
  collision_resolution : CollisionMetadata
  constraint_resolution : ConstraintMetadata
  deriving DecidableEq, Repr

/-- The `source_powers` list comprehension (exporter.py line 74): fails on
the first reference whose normalized form is not subscriptable. -/
def sourcePaths : List PRef → Except String (List String)
  | [] => .ok []
  | r :: rest =>
    match (normalize_power_reference r).getPath with
    | .error e => .error e
    | .ok p =>
      match sourcePaths rest with
      | .error e => .error e
      | .ok ps => .ok (p :: ps)

/-- `export_agent_to_kiro_json`: a missing (or unreadable) system prompt
file is a fatal `ExportError`; then power resources are merged and the
export object assembled, appending steering blocks to the prompt. -/
def export_agent_to_kiro_json (fs : FileSys) (agent_dir : String)
    (spec : AgentSpecM) : Except String KiroExport :=
  match fs.fileContents (agent_dir ++ "/" ++ spec.identity.prompt_file) with
  | none =>
    .error ("System prompt file not found: " ++ spec.identity.prompt_file)
  | some system_prompt =>
    match mergePowerResources fs agent_dir spec.powers with
    | .error e => .error e
    | .ok merged =>
      match sourcePaths spec.powers with
      | .error e => .error e
      | .ok source_powers =>
        let final_prompt :=
          if merged.steering_content.isEmpty then system_prompt
          else system_prompt ++ "\n\n"
            ++ String.intercalate "\n\n" merged.steering_content
        .ok ⟨spec.meta.name, spec.meta.description, final_prompt,
          merged.tools, merged.mcp_servers,
          spec.constraints.allowed_tools, spec.constraints.denied_tools,
          spec.meta.version, agent_dir, source_powers,
          merged.collision_metadata, build_constraint_metadata spec.constraints⟩

/-! ## Constraint resolution (`_merge_shared_context`) -/

/-- `Path(p).name`: the last nonempty path component. -/
def pathName (p : String) : String :=
  ⟨((((splitOnChar '/' p.data)).filter (fun l => ¬l.isEmpty)).getLast?).getD []⟩

/-- The collection's shared context (`CollectionSharedContext`). -/
structure SharedContext where
  powers : List String
  steering : List String
  constraints : Option AgentConstraints

/-- Python `list(set(a) & set(b))`, modelled as a canonical duplicate-free
list (the set's iteration order is unspecified). -/
def pySetInter (a b : List String) : List String :=
  (a.filter (fun x => x ∈ b)).dedup

/-- Python `list(set(a) | set(b))`, same modelling. -/
def pySetUnion (a b : List String) : List String :=
  (a ++ b).dedup

/-- `_merge_shared_context`: deep-copies the agent spec (value semantics
here), prepends the shared powers rewritten under `../shared/powers/`,
and — unless the agent opted out — intersects allowed tools, unions
denied tools and overwrites the network flag.  Because
`AgentConstraints.requires_network` is a plain `bool`, the source's
`is not None` guard is always true.  The `collection_dir` argument of the
source function is unused. -/
def merge_shared_context (agent_spec : AgentSpecM) (shared : SharedContext) :
    AgentSpecM :=
  let merged := { agent_spec with
    powers := shared.powers.map
      (fun p => PRef.str ("../shared/powers/" ++ pathName p))
      ++ agent_spec.powers }
  match shared.constraints with
  | none => merged
  | some sc =>
    if merged.constraints.opt_out_collection_constraints then merged
    else
      let c0 := merged.constraints
      let c1 :=
        if ¬sc.allowed_tools.isEmpty then
          { c0 with allowed_tools := pySetInter c0.allowed_tools sc.allowed_tools }
        else c0
      let c2 :=
        if ¬sc.denied_tools.isEmpty then
          { c1 with denied_tools := pySetUnion c1.denied_tools sc.denied_tools }
        else c1
      { merged with constraints := { c2 with requires_network := sc.requires_network } }

/-! ## Loader and validation (`models.py`, `parser.py`) -/

/-- The `validate_opt_out_justification` field validator: rejects a falsy
justification (absent or empty string) when the opt-out flag is set. -/
def validate_opt_out_justification (opt_out : Bool) (v : Option String) :
    Except String (Option String) :=
  if opt_out ∧ (v = none ∨ v = some "") then
    .error "opt_out_justification required when opt_out_collection_constraints is True"
  else .ok v

/-- Pydantic validation of `AgentConstraints`. -/
def AgentConstraints.validate (r : RawConstraints) :
    Except String AgentConstraints :=
  match validate_opt_out_justification r.opt_out_collection_constraints
      r.opt_out_justification with
  | .error e => .error e
  | .ok j =>
    .ok ⟨r.allowed_tools, r.denied_tools, r.requires_network,
      r.opt_out_collection_constraints, j⟩

/-- `AgentMeta.name` pattern `^[a-zA-Z0-9_-]+$`. -/
def checkMetaName (s : String) : Bool :=
  !s.isEmpty && s.data.all (fun c => c.isAlphanum || c == '_' || c == '-')

/-- `AgentMeta.version` pattern `^\d+\.\d+\.\d+$`. -/
def checkVersion (s : String) : Bool :=
  match splitOnChar '.' s.data with
  | [a, b, c] =>
    !a.isEmpty && a.all Char.isDigit
    && !b.isEmpty && b.all Char.isDigit
    && !c.isEmpty && c.all Char.isDigit
  | _ => false

/-- `AgentMeta.description`: length 10 to 500. -/
def checkDescription (s : String) : Bool :=
  decide (10 ≤ s.length) && decide (s.length ≤ 500)

/-- Pydantic validation of one entry of `AgentSpec.powers`: strings pass
through; a dict must match `PowerReference` (path pattern `^\./.*`) and is
constructed into a model instance. -/
def validatePowerRef : PRef → Except String PRef
  | .str s => .ok (.str s)
  | .dict d =>
    if strStartsWith d.path "./" then .ok (.model d)
    else .error "String should match pattern ^\\./.*"
  | .model d =>
    if strStartsWith d.path "./" then .ok (.model d)
    else .error "String should match pattern ^\\./.*"

def validatePowerRefs : List PRef → Except String (List PRef)
  | [] => .ok []
  | r :: rest =>
    match validatePowerRef r with
    | .error e => .error e
    | .ok r2 =>
      match validatePowerRefs rest with
      | .error e => .error e
      | .ok rs => .ok (r2 :: rs)

/-- `load_agent_spec`: read `agent.yaml` (a `none` lookup models a
missing, oversized or unparseable file) and run pydantic validation of
`AgentSpec`; any `ValidationError` is re-raised as a typed
`AgentSpecError` before the spec is ever returned, so a spec failing
constraint validation never reaches merging or export. -/
def load_agent_spec (fs : FileSys) (agent_dir : String) :
    Except String AgentSpecM :=
  match fs.agentYaml agent_dir with
  | none => .error ("Missing agent.yaml in " ++ agent_dir)
  | some raw =>
    if ¬checkMetaName raw.meta.name then
      .error "Agent specification validation failed: meta.name"
    else if ¬checkDescription raw.meta.description then
      .error "Agent specification validation failed: meta.description"
    else if ¬checkVersion raw.meta.version then
      .error "Agent specification validation failed: meta.version"
    else if ¬strEndsWith raw.identity.prompt_file ".md" then
      .error "Agent specification validation failed: identity.prompt_file"
    else if raw.powers.isEmpty then
      .error "Agent specification validation failed: powers"
    else
      match validatePowerRefs raw.powers with
      | .error e => .error ("Agent specification validation failed: " ++ e)
      | .ok ps =>
        match AgentConstraints.validate raw.constraints with
        | .error e => .error ("Agent specification validation failed: " ++ e)
        | .ok c => .ok ⟨raw.meta, raw.identity, ps, c⟩

/-! ## Collection export (`export_collection_to_kiro_json`) -/

structure CollectionAgentM where
  path : String
  role : String
  deriving DecidableEq, Repr

structure CollectionSpecM where
  name : String
  agents : List CollectionAgentM
  shared : SharedContext

/-- The processed shared-context block: nonexistent shared power dirs and
steering files are silently dropped; load failures yield error entries
(`none` payload here); successes record name/description or content
size. -/
structure SharedProcessed where
  powers : List (String × Option (String × String))
  steering : List (String × Option ℕ)
  deriving DecidableEq, Repr

def process_shared_context (fs : FileSys) (collection_dir : String)
    (sc : SharedContext) : SharedProcessed :=
  ⟨sc.powers.filterMap fun p =>
      let power_dir := collection_dir ++ "/" ++ p
      if fs.dirExists power_dir then
        some (p, (fs.powerSpecs power_dir).map
          (fun ps => (ps.meta.name, ps.meta.description)))
      else none,
   sc.steering.filterMap fun sp =>
      match fs.fileContents (collection_dir ++ "/" ++ sp) with
      | some content => some (sp, some content.length)
      | none => none⟩

/-- The body of the per-agent loop: load the agent spec, merge the shared
context into it, and export it. -/
def export_one_agent (fs : FileSys) (collection_dir : String)
    (shared : SharedContext) (agent_ref : CollectionAgentM) :
    Except String KiroExport :=
  let agent_dir := collection_dir ++ "/" ++ agent_ref.path
  match load_agent_spec fs agent_dir with
  | .error e => .error e
  | .ok agent_spec =>
    export_agent_to_kiro_json fs agent_dir
      (merge_shared_context agent_spec shared)

/-- The agent loop: any per-agent failure is re-raised as
`ExportError("Failed to export agent ...")`, aborting the whole
collection export. -/
def exportAgentsLoop (fs : FileSys) (collection_dir : String)
    (shared : SharedContext) :
    List (String × KiroExport) → List CollectionAgentM →
    Except String (List (String × KiroExport))
  | acc, [] => .ok acc
  | acc, agent_ref :: rest =>
    match export_one_agent fs collection_dir shared agent_ref with
    | .error e =>
      .error ("Failed to export agent " ++ pathName agent_ref.path ++ ": " ++ e)
    | .ok agent_json =>
      exportAgentsLoop fs collection_dir shared
        (aset acc (pathName agent_ref.path) agent_json) rest

structure CollectionExport where
  manifest_collection : String
  manifest_agent_names : List String
  agents : List (String × KiroExport)
  shared_context : SharedProcessed
  deriving DecidableEq, Repr

/-- `export_collection_to_kiro_json`: builds the manifest and processed
shared context (neither can fail), then exports every agent; the first
agent failure raises and no partial result is returned. -/
def export_collection_to_kiro_json (fs : FileSys) (collection_dir : String)
    (spec : CollectionSpecM) : Except String CollectionExport :=
  match exportAgentsLoop fs collection_dir spec.shared [] spec.agents with
  | .error e => .error e
  | .ok ags =>
    .ok ⟨spec.name, spec.agents.map (fun a => pathName a.path), ags,
      process_shared_context fs collection_dir spec.shared⟩

/-! ## Basic lemmas about the dict model -/

theorem alookup_mem {α : Type} {l : List (String × α)} {k : String} {v : α}
    (h : alookup l k = some v) : (k, v) ∈ l := by
  induction l with
  | nil => simp [alookup] at h
  | cons kv t ih =>
    obtain ⟨k1, v1⟩ := kv
    by_cases hk : k1 = k
    · subst hk
      simp [alookup] at h
      subst h
      exact List.mem_cons_self _ _
    · simp [alookup, hk] at h
      exact List.mem_cons_of_mem _ (ih h)

theorem alookup_aset_self {α : Type} (l : List (String × α)) (k : String)
    (v : α) : alookup (aset l k v) k = some v := by
  induction l with
  | nil => simp [aset, alookup]
  | cons kv t ih =>
    obtain ⟨k1, v1⟩ := kv
    by_cases hk : k1 = k
    · subst hk
      simp [aset, alookup]
    · simp [aset, alookup, hk, ih]

theorem alookup_aset_ne {α : Type} (l : List (String × α)) {k1 k2 : String}
    (v : α) (h : k1 ≠ k2) : alookup (aset l k1 v) k2 = alookup l k2 := by
  induction l with
  | nil => simp [aset, alookup, h]
  | cons kv t ih =>
    obtain ⟨ka, va⟩ := kv
    by_cases hk : ka = k1
    · subst hk
      simp [aset, alookup, h]
    · simp [aset, alookup, hk, ih]

/-! ## Constraint resolution: set-level lemmas -/

theorem pySetInter_toFinset (a b : List String) :
    (pySetInter a b).toFinset = a.toFinset ∩ b.toFinset := by
  ext x
  simp [pySetInter]

theorem pySetUnion_toFinset (a b : List String) :
    (pySetUnion a b).toFinset = a.toFinset ∪ b.toFinset := by
  ext x
  simp [pySetUnion]

/-- C4: for an agent that has not opted out of collection constraints,
merged with a shared context declaring non-empty allowed-tools and
non-empty denied-tools, `_merge_shared_context` yields allowed-tools equal
as a set to the intersection of the agent's and the shared allowed-tools,
and denied-tools equal as a set to the union of the agent's and the shared
denied-tools. -/
theorem c4_shared_constraints_intersect_allowed_union_denied
    (agent_spec : AgentSpecM) (shared : SharedContext) (sc : AgentConstraints)
    (hsc : shared.constraints = some sc)
    (hopt : agent_spec.constraints.opt_out_collection_constraints = false)
    (hallow : sc.allowed_tools ≠ [])
    (hdeny : sc.denied_tools ≠ []) :
    (merge_shared_context agent_spec shared).constraints.allowed_tools.toFinset
      = agent_spec.constraints.allowed_tools.toFinset ∩ sc.allowed_tools.toFinset
    ∧ (merge_shared_context agent_spec shared).constraints.denied_tools.toFinset
      = agent_spec.constraints.denied_tools.toFinset ∪ sc.denied_tools.toFinset := by
  have ha : ¬sc.allowed_tools.isEmpty := by
    simpa [List.isEmpty_iff] using hallow
  have hd : ¬sc.denied_tools.isEmpty := by
    simpa [List.isEmpty_iff] using hdeny
  simp only [merge_shared_context, hsc, hopt, ha, hd, Bool.false_eq_true,
    if_false, if_pos, ite_not]
  constructor
  · simpa using pySetInter_toFinset agent_spec.constraints.allowed_tools
      sc.allowed_tools
  · simpa using pySetUnion_toFinset agent_spec.constraints.denied_tools
      sc.denied_tools

/-- C4 witness: the spec's concrete example. -/
theorem c4_witness :
    (some (⟨["fs.read", "net.get"], ["exec.*"], false, false, none⟩ : AgentConstraints)
        = some (⟨["fs.read", "net.get"], ["exec.*"], false, false, none⟩ : AgentConstraints))
    ∧ ((⟨⟨"a", "d", "1.0.0"⟩, ⟨"p.md", []⟩, [],
        ⟨["fs.read", "fs.write"], ["net.*"], false, false, none⟩⟩ :
        AgentSpecM).constraints.opt_out_collection_constraints = false)
    ∧ ((merge_shared_context
        ⟨⟨"a", "d", "1.0.0"⟩, ⟨"p.md", []⟩, [],
          ⟨["fs.read", "fs.write"], ["net.*"], false, false, none⟩⟩
        ⟨[], [], some ⟨["fs.read", "net.get"], ["exec.*"], false, false, none⟩⟩
        ).constraints.allowed_tools.toFinset
      = (["fs.read", "fs.write"] : List String).toFinset
        ∩ (["fs.read", "net.get"] : List String).toFinset
    ∧ (merge_shared_context
        ⟨⟨"a", "d", "1.0.0"⟩, ⟨"p.md", []⟩, [],
          ⟨["fs.read", "fs.write"], ["net.*"], false, false, none⟩⟩
        ⟨[], [], some ⟨["fs.read", "net.get"], ["exec.*"], false, false, none⟩⟩
        ).constraints.denied_tools.toFinset
      = (["net.*"] : List String).toFinset ∪ (["exec.*"] : List String).toFinset) :=
  ⟨rfl, rfl,
    c4_shared_constraints_intersect_allowed_union_denied
      ⟨⟨"a", "d", "1.0.0"⟩, ⟨"p.md", []⟩, [],
        ⟨["fs.read", "fs.write"], ["net.*"], false, false, none⟩⟩
      ⟨[], [], some ⟨["fs.read", "net.get"], ["exec.*"], false, false, none⟩⟩
      ⟨["fs.read", "net.get"], ["exec.*"], false, false, none⟩
      rfl rfl (by decide) (by decide)⟩

/-- C5: when the agent's constraints set `opt_out_collection_constraints`,
`_merge_shared_context` returns the agent's constraint block exactly as
declared (allowed-tools, denied-tools, network flag and justification all
unchanged), whatever the collection's shared constraints contain; the
source deep-copies the spec, so the input is never mutated (value
semantics in this model). -/
theorem c5_opt_out_leaves_constraints_unchanged
    (agent_spec : AgentSpecM) (shared : SharedContext)
    (hopt : agent_spec.constraints.opt_out_collection_constraints = true) :
    (merge_shared_context agent_spec shared).constraints
      = agent_spec.constraints := by
  cases hsc : shared.constraints with
  | none => simp [merge_shared_context, hsc]
  | some sc => simp [merge_shared_context, hsc, hopt]

/-- C5 witness. -/
theorem c5_witness :
    ((⟨⟨"a", "d", "1.0.0"⟩, ⟨"p.md", []⟩, [],
        ⟨["fs.read"], ["net.*"], true, true, some "needs it"⟩⟩ :
        AgentSpecM).constraints.opt_out_collection_constraints = true)
    ∧ (merge_shared_context
        ⟨⟨"a", "d", "1.0.0"⟩, ⟨"p.md", []⟩, [],
          ⟨["fs.read"], ["net.*"], true, true, some "needs it"⟩⟩
        ⟨["sp"], [], some ⟨["other"], ["deny.*"], false, false, none⟩⟩).constraints
      = ⟨["fs.read"], ["net.*"], true, true, some "needs it"⟩ :=
  ⟨rfl,
    c5_opt_out_leaves_constraints_unchanged
      ⟨⟨"a", "d", "1.0.0"⟩, ⟨"p.md", []⟩, [],
        ⟨["fs.read"], ["net.*"], true, true, some "needs it"⟩⟩
      ⟨["sp"], [], some ⟨["other"], ["deny.*"], false, false, none⟩⟩ rfl⟩

/-! ## Loader validation (C9) -/

/-- A concrete filesystem whose only content is one agent.yaml with an
opted-out constraint block lacking a justification. -/
def fsC9 : FileSys :=
  ⟨fun _ => none, fun _ => false, fun _ => none, fun _ => none,
   fun p => if p = "a" then
      some ⟨⟨"agent", "a description here", "1.0.0"⟩, ⟨"prompt.md", []⟩,
        [.str "./pw"], ⟨[], [], false, true, none⟩⟩
    else none⟩

/-- C9: an agent constraint block with `opt_out_collection_constraints`
true and an absent or empty justification fails pydantic validation, and
`load_agent_spec` therefore raises a typed error before any merge or
export can see the spec; the same block with a non-empty justification
validates, preserving every field. -/
theorem c9_opt_out_justification_required :
    (∀ r : RawConstraints, r.opt_out_collection_constraints = true →
      (r.opt_out_justification = none ∨ r.opt_out_justification = some "") →
      AgentConstraints.validate r = .error
        "opt_out_justification required when opt_out_collection_constraints is True")
    ∧ (∀ (fs : FileSys) (agent_dir : String) (raw : RawAgentSpec),
      fs.agentYaml agent_dir = some raw →
      raw.constraints.opt_out_collection_constraints = true →
      (raw.constraints.opt_out_justification = none
        ∨ raw.constraints.opt_out_justification = some "") →
      exceptOk (load_agent_spec fs agent_dir) = false)
    ∧ (∀ (r : RawConstraints) (s : String),
      r.opt_out_justification = some s → s ≠ "" →
      AgentConstraints.validate r = .ok ⟨r.allowed_tools, r.denied_tools,
        r.requires_network, r.opt_out_collection_constraints, some s⟩) := by
  have hval : ∀ r : RawConstraints, r.opt_out_collection_constraints = true →
      (r.opt_out_justification = none ∨ r.opt_out_justification = some "") →
      AgentConstraints.validate r = .error
        "opt_out_justification required when opt_out_collection_constraints is True" := by
    intro r h1 h2
    simp [AgentConstraints.validate, validate_opt_out_justification, h1, h2]
  refine ⟨hval, ?_, ?_⟩
  · intro fs agent_dir raw hyaml h1 h2
    simp only [load_agent_spec, hyaml]
    split
    · rfl
    split
    · rfl
    split
    · rfl
    split
    · rfl
    split
    · rfl
    cases hpr : validatePowerRefs raw.powers with
    | error e => simp [hpr, exceptOk]
    | ok ps => simp [hpr, hval raw.constraints h1 h2, exceptOk]
  · intro r s hj hs
    simp [AgentConstraints.validate, validate_opt_out_justification, hj, hs]

/-- C9 witness: the failing and the passing constraint block, and the
load-time failure on a concrete filesystem. -/
theorem c9_witness :
    ((⟨⟨"agent", "a description here", "1.0.0"⟩, ⟨"prompt.md", []⟩,
        [.str "./pw"], ⟨[], [], false, true, none⟩⟩ : RawAgentSpec).constraints.opt_out_collection_constraints
      = true)
    ∧ AgentConstraints.validate ⟨[], [], false, true, none⟩ = .error
        "opt_out_justification required when opt_out_collection_constraints is True"
    ∧ exceptOk (load_agent_spec fsC9 "a") = false
    ∧ AgentConstraints.validate ⟨[], [], false, true, some "needs raw shell"⟩
      = .ok ⟨[], [], false, true, some "needs raw shell"⟩ :=
  ⟨rfl,
   c9_opt_out_justification_required.1 ⟨[], [], false, true, none⟩ rfl (Or.inl rfl),
   c9_opt_out_justification_required.2.1 fsC9 "a"
     ⟨⟨"agent", "a description here", "1.0.0"⟩, ⟨"prompt.md", []⟩,
       [.str "./pw"], ⟨[], [], false, true, none⟩⟩ rfl rfl (Or.inl rfl),
   c9_opt_out_justification_required.2.2 ⟨[], [], false, true, some "needs raw shell"⟩
     "needs raw shell" rfl (by decide)⟩

/-! ## Collection export is all-or-nothing (C10) -/

theorem exportAgentsLoop_error_of_mem (fs : FileSys) (collection_dir : String)
    (shared : SharedContext) (a : CollectionAgentM) :
    ∀ (l : List CollectionAgentM) (acc : List (String × KiroExport)),
    a ∈ l → exceptOk (export_one_agent fs collection_dir shared a) = false →
    exceptOk (exportAgentsLoop fs collection_dir shared acc l) = false := by
  intro l
  induction l with
  | nil => intro acc h; simp at h
  | cons b rest ih =>
    intro acc hmem hfail
    rcases List.mem_cons.mp hmem with hab | hmem2
    · subst hab
      cases hb : export_one_agent fs collection_dir shared a with
      | error e => simp [exportAgentsLoop, hb, exceptOk]
      | ok j => rw [hb] at hfail; simp [exceptOk] at hfail
    · cases hb : export_one_agent fs collection_dir shared b with
      | error e => simp [exportAgentsLoop, hb, exceptOk]
      | ok j => simp only [exportAgentsLoop, hb]; exact ih _ hmem2 hfail

/-- C10: `export_collection_to_kiro_json` is all-or-nothing — if loading,
constraint-merging or exporting any agent declared in the collection
fails, the whole collection export fails with an `ExportError` and no
partial result is produced. -/
theorem c10_collection_export_all_or_nothing (fs : FileSys)
    (collection_dir : String) (spec : CollectionSpecM) (a : CollectionAgentM)
    (hmem : a ∈ spec.agents)
    (hfail : exceptOk (export_one_agent fs collection_dir spec.shared a) = false) :
    exceptOk (export_collection_to_kiro_json fs collection_dir spec) = false := by
  have h := exportAgentsLoop_error_of_mem fs collection_dir spec.shared a
    spec.agents [] hmem hfail
  cases hl : exportAgentsLoop fs collection_dir spec.shared [] spec.agents with
  | error e => simp [export_collection_to_kiro_json, hl, exceptOk]
  | ok ags => rw [hl] at h; simp [exceptOk] at h

/-- C10 witness: a collection with one agent whose agent.yaml is missing
on an empty filesystem. -/
theorem c10_witness :
    ((⟨"team1", "lead"⟩ : CollectionAgentM)
        ∈ (⟨"col", [⟨"team1", "lead"⟩], ⟨[], [], none⟩⟩ : CollectionSpecM).agents)
    ∧ exceptOk (export_one_agent
        ⟨fun _ => none, fun _ => false, fun _ => none, fun _ => none, fun _ => none⟩
        "c" (⟨[], [], none⟩ : SharedContext) ⟨"team1", "lead"⟩) = false
    ∧ exceptOk (export_collection_to_kiro_json
        ⟨fun _ => none, fun _ => false, fun _ => none, fun _ => none, fun _ => none⟩
        "c" ⟨"col", [⟨"team1", "lead"⟩], ⟨[], [], none⟩⟩) = false :=
  ⟨List.mem_singleton.mpr rfl, by decide,
   c10_collection_export_all_or_nothing
     ⟨fun _ => none, fun _ => false, fun _ => none, fun _ => none, fun _ => none⟩
     "c" ⟨"col", [⟨"team1", "lead"⟩], ⟨[], [], none⟩⟩ ⟨"team1", "lead"⟩
     (List.mem_singleton.mpr rfl) (by decide)⟩

/-! ## Router (C7): stable descending sort lemmas -/

theorem mem_insertDesc {x a : RouteMatch} {l : List RouteMatch} :
    a ∈ insertDesc x l ↔ a = x ∨ a ∈ l := by
  induction l with
  | nil => simp [insertDesc]
  | cons y ys ih =>
    by_cases h : x.score < y.score
    · rw [insertDesc, if_pos h, List.mem_cons, ih, List.mem_cons]
      tauto
    · rw [insertDesc, if_neg h, List.mem_cons, List.mem_cons]

theorem insertDesc_pairwise (x : RouteMatch) (l : List RouteMatch)
    (h : l.Pairwise (fun a b => b.score ≤ a.score)) :
    (insertDesc x l).Pairwise (fun a b => b.score ≤ a.score) := by
  induction l with
  | nil => simp [insertDesc]
  | cons y ys ih =>
    rw [List.pairwise_cons] at h
    by_cases hx : x.score < y.score
    · rw [insertDesc, if_pos hx, List.pairwise_cons]
      refine ⟨?_, ih h.2⟩
      intro z hz
      rcases mem_insertDesc.mp hz with rfl | hz2
      · exact le_of_lt hx
      · exact h.1 z hz2
    · rw [insertDesc, if_neg hx, List.pairwise_cons]
      refine ⟨?_, List.pairwise_cons.mpr h⟩
      intro z hz
      rcases List.mem_cons.mp hz with rfl | hz2
      · exact le_of_not_lt hx
      · exact le_trans (h.1 z hz2) (le_of_not_lt hx)

theorem sortDesc_pairwise (l : List RouteMatch) :
    (sortDesc l).Pairwise (fun a b => b.score ≤ a.score) := by
  induction l with
  | nil => simp [sortDesc]
  | cons x xs ih => exact insertDesc_pairwise x (sortDesc xs) ih

theorem filter_insertDesc (s : ℤ) (x : RouteMatch) (l : List RouteMatch) :
    (insertDesc x l).filter (fun m => m.score == s)
      = if x.score = s then x :: l.filter (fun m => m.score == s)
        else l.filter (fun m => m.score == s) := by
  induction l with
  | nil =>
    by_cases hx : x.score = s <;> simp [insertDesc, hx]
  | cons y ys ih =>
    by_cases hlt : x.score < y.score
    · rw [insertDesc, if_pos hlt]
      by_cases hx : x.score = s
      · have hy : y.score ≠ s := by omega
        simp [List.filter_cons, hy, ih, hx]
      · simp [List.filter_cons, ih, hx]
    · rw [insertDesc, if_neg hlt]
      by_cases hx : x.score = s
      · simp [List.filter_cons, hx]
      · simp [List.filter_cons, hx]

theorem filter_sortDesc (s : ℤ) (l : List RouteMatch) :
    (sortDesc l).filter (fun m => m.score == s)
      = l.filter (fun m => m.score == s) := by
  induction l with
  | nil => simp [sortDesc]
  | cons x xs ih =>
    rw [sortDesc, filter_insertDesc]
    by_cases hx : x.score = s
    · have hxb : (x.score == s) = true := by simp [hx]
      simp [hx, ih, List.filter_cons, hxb]
    · have hxb : (x.score == s) = false := by simp [hx]
      simp [hx, ih, List.filter_cons, hxb]

/-- C7: `select_powers` returns exactly the scored matches reaching
`min_score`, in descending score order with ties kept in input order
(stable sort: for every score value, the survivors with that score appear
exactly as they do in the scored input), truncated to at most
`max_results`; when nothing qualifies it returns `[]` (it is a total
function, so it never raises). -/
theorem c7_select_powers_filter_rank_truncate
    (ratio : String → String → ℚ) (fm : String → String → Bool)
    (specs : List PowerSpec) (prompt : String) (files : Option (List String))
    (min_score : ℤ) (max_results : ℕ) :
    select_powers ratio fm specs prompt files min_score max_results
      = (sortDesc ((specs.map (fun sp => score_power ratio fm sp prompt files)).filter
          (fun m => decide (min_score ≤ m.score)))).take max_results
    ∧ (select_powers ratio fm specs prompt files min_score max_results).length
        ≤ max_results
    ∧ (select_powers ratio fm specs prompt files min_score max_results).Pairwise
        (fun a b => b.score ≤ a.score)
    ∧ (∀ s : ℤ,
        (sortDesc ((specs.map (fun sp => score_power ratio fm sp prompt files)).filter
          (fun m => decide (min_score ≤ m.score)))).filter (fun m => m.score == s)
        = ((specs.map (fun sp => score_power ratio fm sp prompt files)).filter
          (fun m => decide (min_score ≤ m.score))).filter (fun m => m.score == s))
    ∧ ((∀ m ∈ specs.map (fun sp => score_power ratio fm sp prompt files),
          m.score < min_score) →
        select_powers ratio fm specs prompt files min_score max_results = []) := by
  refine ⟨rfl, ?_, ?_, ?_, ?_⟩
  · exact List.length_take_le _ _
  · exact (sortDesc_pairwise _).sublist (List.take_sublist _ _)
  · intro s
    exact filter_sortDesc s _
  · intro hall
    have hnil : (specs.map (fun sp => score_power ratio fm sp prompt files)).filter
        (fun m => decide (min_score ≤ m.score)) = [] := by
      rw [List.filter_eq_nil_iff]
      intro m hm
      simp only [decide_eq_true_eq]
      exact not_le.mpr (hall m hm)
    show (sortDesc _).take max_results = []
    rw [hnil]
    simp [sortDesc]

/-- C7 witness: a one-spec instance whose score cannot reach the
threshold, exercising the empty-result clause. -/
theorem c7_witness :
    (∀ m ∈ ([⟨⟨"demo", ""⟩, ⟨[], [], []⟩, ⟨[], []⟩⟩] : List PowerSpec).map
        (fun sp => score_power (fun _ _ => 0) (fun _ _ => false) sp "hi" none),
      m.score < 5)
    ∧ select_powers (fun _ _ => 0) (fun _ _ => false)
        [⟨⟨"demo", ""⟩, ⟨[], [], []⟩, ⟨[], []⟩⟩] "hi" none 5 10 = [] :=
  ⟨by decide,
   (c7_select_powers_filter_rank_truncate (fun _ _ => 0) (fun _ _ => false)
     [⟨⟨"demo", ""⟩, ⟨[], [], []⟩, ⟨[], []⟩⟩] "hi" none 5 10).2.2.2.2 (by decide)⟩

/-! ## Scorer (C8): section accounting lemmas -/

theorem sectionFold_score {α : Type} (f : α → ℤ × List String) :
    ∀ (l : List α) (acc : ℤ × List String),
    (sectionFold f l acc).1 = acc.1 + (l.map (fun x => (f x).1)).sum := by
  intro l
  induction l with
  | nil => intro acc; simp [sectionFold]
  | cons x xs ih =>
    intro acc
    rw [sectionFold, ih]
    simp [add_assoc]

theorem sectionFold_reasons {α : Type} (f : α → ℤ × List String) :
    ∀ (l : List α) (acc : ℤ × List String),
    (sectionFold f l acc).2 = acc.2 ++ (l.map (fun x => (f x).2)).flatten := by
  intro l
  induction l with
  | nil => intro acc; simp [sectionFold]
  | cons x xs ih =>
    intro acc
    rw [sectionFold, ih]
    simp [List.append_assoc]

theorem pyInt_nonneg {q : ℚ} (h : 0 ≤ q) : 0 ≤ pyInt q :=
  Int.ediv_nonneg (Rat.num_nonneg.mpr h) (Int.natCast_nonneg _)

theorem score_keyword_overlap_nonneg (a b : Finset String) :
    0 ≤ score_keyword_overlap a b := by
  unfold score_keyword_overlap
  split
  · exact le_refl 0
  split
  · exact le_refl 0
  · positivity

theorem phraseContrib_nonneg (ratio : String → String → ℚ)
    (hr : ∀ a b, 0 ≤ ratio a b) (prompt_lower phrase : String) :
    0 ≤ (phraseContrib ratio prompt_lower phrase).1 := by
  simp only [phraseContrib]
  split_ifs
  · norm_num
  · exact pyInt_nonneg (mul_nonneg (hr _ _) (by norm_num))
  · norm_num

theorem domainContrib_nonneg (prompt_lower : String)
    (prompt_keywords : Finset String) (domain : String) :
    0 ≤ (domainContrib prompt_lower prompt_keywords domain).1 := by
  simp only [domainContrib]
  split_ifs
  · norm_num
  · exact pyInt_nonneg (mul_nonneg (score_keyword_overlap_nonneg _ _) (by norm_num))
  · norm_num

theorem fileContrib_nonneg (fm : String → String → Bool) (files : List String)
    (pattern : String) : 0 ≤ (fileContrib fm files pattern).1 := by
  simp only [fileContrib]
  split_ifs
  · exact le_min (by positivity) (by norm_num)
  · norm_num

/-- Score-and-reasons extension order between accumulators. -/
def SectionExt (a b : ℤ × List String) : Prop :=
  a.1 ≤ b.1 ∧ ∀ r ∈ a.2, r ∈ b.2

theorem SectionExt.rfl (a : ℤ × List String) : SectionExt a a :=
  ⟨le_refl _, fun _ h => h⟩

theorem SectionExt.trans {a b c : ℤ × List String} (h1 : SectionExt a b)
    (h2 : SectionExt b c) : SectionExt a c :=
  ⟨le_trans h1.1 h2.1, fun r hr => h2.2 r (h1.2 r hr)⟩

theorem sectionFold_ext {α : Type} (f : α → ℤ × List String)
    (l : List α) (acc : ℤ × List String)
    (hf : ∀ x ∈ l, 0 ≤ (f x).1) : SectionExt acc (sectionFold f l acc) := by
  constructor
  · rw [sectionFold_score]
    have : 0 ≤ (l.map (fun x => (f x).1)).sum := by
      apply List.sum_nonneg
      intro y hy
      obtain ⟨x, hx, rfl⟩ := List.mem_map.mp hy
      exact hf x hx
    omega
  · intro r hr
    rw [sectionFold_reasons]
    exact List.mem_append_left _ hr

theorem sectionFold_ge_of_mem {α : Type} (f : α → ℤ × List String)
    (l : List α) (acc : ℤ × List String) (x : α) (hx : x ∈ l)
    (hf : ∀ y ∈ l, 0 ≤ (f y).1) :
    acc.1 + (f x).1 ≤ (sectionFold f l acc).1 := by
  rw [sectionFold_score]
  have hmem : (f x).1 ∈ l.map (fun y => (f y).1) :=
    List.mem_map.mpr ⟨x, hx, rfl⟩
  have hnn : ∀ v ∈ l.map (fun y => (f y).1), 0 ≤ v := by
    intro v hv
    obtain ⟨y, hy, rfl⟩ := List.mem_map.mp hv
    exact hf y hy
  have := List.single_le_sum hnn _ hmem
  omega

theorem sectionFold_reason_of_mem {α : Type} (f : α → ℤ × List String)
    (l : List α) (acc : ℤ × List String) (x : α) (r : String) (hx : x ∈ l)
    (hr : r ∈ (f x).2) : r ∈ (sectionFold f l acc).2 := by
  rw [sectionFold_reasons]
  apply List.mem_append_right
  exact List.mem_flatten.mpr ⟨(f x).2, List.mem_map.mpr ⟨x, hx, rfl⟩, hr⟩

theorem sectionExt_add_ite (c : Prop) [Decidable c] (s : ℤ × List String)
    (k : ℤ) (t : String) (hk : 0 ≤ k) :
    SectionExt s (if c then (s.1 + k, s.2 ++ [t]) else s) := by
  split_ifs
  · exact ⟨by omega, fun r hr => List.mem_append_left _ hr⟩
  · exact SectionExt.rfl s

theorem filesSection_ext (fm : String → String → Bool)
    (files : Option (List String)) (patterns : List String)
    (acc : ℤ × List String) : SectionExt acc (filesSection fm files patterns acc) := by
  cases files with
  | none => exact SectionExt.rfl acc
  | some fl =>
    rw [filesSection]
    split_ifs
    · exact SectionExt.rfl acc
    · exact sectionFold_ext _ _ _ (fun x _ => fileContrib_nonneg fm fl x)

theorem descSection_ext (spec : PowerSpec) (pk : Finset String)
    (acc : ℤ × List String) : SectionExt acc (descSection spec pk acc) := by
  simp only [descSection]
  split_ifs
  · exact ⟨by
      have := pyInt_nonneg (mul_nonneg
        (score_keyword_overlap_nonneg pk (extract_keywords spec.meta.description))
        (by norm_num : (0 : ℚ) ≤ 4))
      omega,
      fun r hr => List.mem_append_left _ hr⟩
  · exact SectionExt.rfl acc
  · exact SectionExt.rfl acc

theorem triggerCompleteness_nonneg (spec : PowerSpec) :
    0 ≤ triggerCompleteness spec := by
  rw [triggerCompleteness]
  split_ifs <;> norm_num

theorem completenessSection_ext (spec : PowerSpec) (acc : ℤ × List String) :
    SectionExt acc (completenessSection spec acc) := by
  rw [completenessSection]
  split_ifs
  · exact ⟨by have := triggerCompleteness_nonneg spec; omega,
      fun r hr => List.mem_append_left _ hr⟩
  · exact SectionExt.rfl acc

/-- The phrase section extends into the final score and reasons of
`score_power`. -/
theorem score_power_ext (ratio : String → String → ℚ)
    (fm : String → String → Bool) (spec : PowerSpec) (prompt : String)
    (files : Option (List String)) :
    SectionExt
      (sectionFold (phraseContrib ratio (pyLower prompt)) spec.triggers.phrases (0, []))
      ((score_power ratio fm spec prompt files).score,
       (score_power ratio fm spec prompt files).reasons) := by
  simp only [score_power, Prod.mk.eta]
  exact SectionExt.trans
    (sectionFold_ext _ _ _
      (fun x _ => domainContrib_nonneg (pyLower prompt) (extract_keywords prompt) x))
    (SectionExt.trans (filesSection_ext fm files spec.triggers.files _)
      (SectionExt.trans (descSection_ext spec (extract_keywords prompt) _)
        (completenessSection_ext spec _)))

/-- C8: whenever some trigger phrase of the spec occurs (lower-cased) as
a substring of the lower-cased prompt, `score_power` returns a match with
total score at least 10 whose reasons contain `exact_phrase:<phrase>`,
and that phrase's own contribution is exactly the 10-point exact tag — in
particular no fuzzy-phrase contribution is produced for it.  The ratio
hypothesis records that difflib's `ratio()` is non-negative. -/
theorem c8_exact_phrase_scores_ten (ratio : String → String → ℚ)
    (fm : String → String → Bool) (spec : PowerSpec) (prompt : String)
    (files : Option (List String)) (phrase : String)
    (hmem : phrase ∈ spec.triggers.phrases)
    (hsub : strContains (pyLower prompt) (pyLower phrase) = true)
    (hr : ∀ a b, 0 ≤ ratio a b) :
    10 ≤ (score_power ratio fm spec prompt files).score
    ∧ ("exact_phrase:" ++ phrase) ∈ (score_power ratio fm spec prompt files).reasons
    ∧ phraseContrib ratio (pyLower prompt) phrase
      = (10, ["exact_phrase:" ++ phrase]) := by
  have hcontrib : phraseContrib ratio (pyLower prompt) phrase
      = (10, ["exact_phrase:" ++ phrase]) := by
    simp [phraseContrib, hsub]
  have hext := score_power_ext ratio fm spec prompt files
  have h10 : 10 ≤ (sectionFold (phraseContrib ratio (pyLower prompt))
      spec.triggers.phrases (0, [])).1 := by
    have := sectionFold_ge_of_mem (phraseContrib ratio (pyLower prompt))
      spec.triggers.phrases (0, []) phrase hmem
      (fun y _ => phraseContrib_nonneg ratio hr (pyLower prompt) y)
    rw [hcontrib] at this
    simpa using this
  have htag : ("exact_phrase:" ++ phrase) ∈ (sectionFold
      (phraseContrib ratio (pyLower prompt)) spec.triggers.phrases (0, [])).2 := by
    apply sectionFold_reason_of_mem _ _ _ phrase _ hmem
    rw [hcontrib]
    exact List.mem_singleton.mpr rfl
  exact ⟨le_trans h10 hext.1, hext.2 _ htag, hcontrib⟩

/-- C8 witness: the spec's example prompt and phrase. -/
theorem c8_witness :
    ("demo power" ∈ (⟨⟨"demo", "a demo power description"⟩,
        ⟨["demo power"], [], []⟩, ⟨[], []⟩⟩ : PowerSpec).triggers.phrases)
    ∧ strContains (pyLower "use the demo power now") (pyLower "demo power") = true
    ∧ 10 ≤ (score_power (fun _ _ => 0) (fun _ _ => false)
        ⟨⟨"demo", "a demo power description"⟩, ⟨["demo power"], [], []⟩, ⟨[], []⟩⟩
        "use the demo power now" none).score
    ∧ ("exact_phrase:" ++ "demo power") ∈ (score_power (fun _ _ => 0)
        (fun _ _ => false)
        ⟨⟨"demo", "a demo power description"⟩, ⟨["demo power"], [], []⟩, ⟨[], []⟩⟩
        "use the demo power now" none).reasons :=
  ⟨List.mem_singleton.mpr rfl, by decide,
   (c8_exact_phrase_scores_ten (fun _ _ => 0) (fun _ _ => false)
     ⟨⟨"demo", "a demo power description"⟩, ⟨["demo power"], [], []⟩, ⟨[], []⟩⟩
     "use the demo power now" none "demo power" (List.mem_singleton.mpr rfl)
     (by decide) (fun _ _ => le_refl 0)).1,
   (c8_exact_phrase_scores_ten (fun _ _ => 0) (fun _ _ => false)
     ⟨⟨"demo", "a demo power description"⟩, ⟨["demo power"], [], []⟩, ⟨[], []⟩⟩
     "use the demo power now" none "demo power" (List.mem_singleton.mpr rfl)
     (by decide) (fun _ _ => le_refl 0)).2.1⟩

/-! ## Merge engine (C1): tracking one tool name through a merge -/

/-- The observable state of the merge relevant to one tool name: the
merged tools with that name, its recorded source power, and the tool
collisions recorded for it. -/
def toolView (n : String) (st : MergeState) :
    List ToolDef × Option String × List Collision :=
  (st.merged_tools.filter (fun t => t.name == n),
   alookup st.tool_sources n,
   st.tool_collisions.filter (fun c => c.name == n))

theorem processSteering_tool_frame (fs : FileSys) (power_dir : String)
    (st : MergeState) (sf : String) (n : String) :
    toolView n (processSteering fs power_dir st sf) = toolView n st := by
  unfold processSteering
  split <;> rfl

theorem steeringFold_tool_frame (fs : FileSys) (power_dir : String)
    (n : String) : ∀ (sfs : List String) (st : MergeState),
    toolView n (sfs.foldl (processSteering fs power_dir) st) = toolView n st := by
  intro sfs
  induction sfs with
  | nil => intro st; rfl
  | cons sf rest ih =>
    intro st
    rw [List.foldl_cons, ih, processSteering_tool_frame]

theorem processServer_tool_frame (d : PowerRefData) (st : MergeState)
    (kv : String × ℕ) (n : String) :
    toolView n (processServer d st kv) = toolView n st := by
  unfold processServer
  split <;> rfl

theorem serverFold_tool_frame (d : PowerRefData) (n : String) :
    ∀ (ms : List (String × ℕ)) (st : MergeState),
    toolView n (ms.foldl (processServer d) st) = toolView n st := by
  intro ms
  induction ms with
  | nil => intro st; rfl
  | cons kv rest ih =>
    intro st
    rw [List.foldl_cons, ih, processServer_tool_frame]

theorem processToolTail_view_neutral (d : PowerRefData) (st : MergeState)
    (t : ToolDef) (n : String) (ht : t.name ≠ n)
    (hv : ∀ kv ∈ d.tool_aliases, kv.2 ≠ n) :
    toolView n (processToolTail d st t) = toolView n st := by
  unfold processToolTail
  cases ha : alookup d.tool_aliases t.name with
  | none =>
    simp only [ha]
    split_ifs with hex
    · rfl
    · simp [toolView, List.filter_append, ht, alookup_aset_ne _ _ ht]
  | some a =>
    have hne : a ≠ n := hv (t.name, a) (alookup_mem ha)
    simp only [ha]
    split_ifs with hex
    · rfl
    · simp [toolView, List.filter_append, hne, alookup_aset_ne _ _ hne]

theorem processTool_view_neutral (d : PowerRefData) (st : MergeState)
    (t : ToolDef) (n : String) (ht : t.name ≠ n)
    (hv : ∀ kv ∈ d.tool_aliases, kv.2 ≠ n) :
    toolView n (processTool d st t) = toolView n st := by
  unfold processTool
  cases hs : alookup st.tool_sources t.name with
  | none =>
    simp only [hs]
    exact processToolTail_view_neutral d st t n ht hv
  | some src =>
    simp only [hs]
    split_ifs with hex
    · exact processToolTail_view_neutral d st t n ht hv
    · simp [toolView, List.filter_append, ht]

theorem processTool_view_first (d : PowerRefData) (st : MergeState)
    (t : ToolDef) (n : String) (ht : t.name = n)
    (hsrc : alookup st.tool_sources n = none)
    (ha : alookup d.tool_aliases n = none) (hex : n ∉ d.exclude_tools) :
    toolView n (processTool d st t)
      = ((toolView n st).1 ++ [t], some d.path, (toolView n st).2.2) := by
  simp [processTool, processToolTail, toolView, ht, hsrc, ha, hex,
    List.filter_append, alookup_aset_self]

theorem processTool_view_collide (d : PowerRefData) (st : MergeState)
    (t : ToolDef) (n src : String) (ht : t.name = n)
    (hsrc : alookup st.tool_sources n = some src) (hex : n ∉ d.exclude_tools) :
    toolView n (processTool d st t)
      = ((toolView n st).1, some src,
         (toolView n st).2.2 ++ [⟨n, [src, d.path], "unresolved", src⟩]) := by
  simp [processTool, toolView, ht, hsrc, hex, List.filter_append]

theorem toolsFold_view_neutral (d : PowerRefData) (n : String)
    (hv : ∀ kv ∈ d.tool_aliases, kv.2 ≠ n) :
    ∀ (ts : List ToolDef) (st : MergeState), (∀ t ∈ ts, t.name ≠ n) →
    toolView n (ts.foldl (processTool d) st) = toolView n st := by
  intro ts
  induction ts with
  | nil => intro st _; rfl
  | cons t rest ih =>
    intro st hts
    rw [List.foldl_cons, ih _ (fun x hx => hts x (List.mem_cons_of_mem _ hx)),
      processTool_view_neutral d st t n (hts t (List.mem_cons_self _ _)) hv]

theorem processToolsFile_view_insert (d : PowerRefData) (st : MergeState)
    (n : String) (ta tb : List ToolDef) (t : ToolDef)
    (ms : Option (List (String × ℕ)))
    (ht : t.name = n) (hna : ∀ x ∈ ta, x.name ≠ n) (hnb : ∀ x ∈ tb, x.name ≠ n)
    (hex : n ∉ d.exclude_tools) (ha : alookup d.tool_aliases n = none)
    (hv : ∀ kv ∈ d.tool_aliases, kv.2 ≠ n)
    (hst : (toolView n st).2.1 = none) :
    toolView n (processToolsFile d st (some ⟨some (ta ++ t :: tb), ms⟩))
      = ((toolView n st).1 ++ [t], some d.path, (toolView n st).2.2) := by
  have h1 : toolView n (ta.foldl (processTool d) st) = toolView n st :=
    toolsFold_view_neutral d n hv ta st hna
  have hsrc : alookup (ta.foldl (processTool d) st).tool_sources n = none := by
    have := congrArg (fun v => v.2.1) h1
    simp only [toolView] at this
    rw [this]
    simpa [toolView] using hst
  have h2 := processTool_view_first d (ta.foldl (processTool d) st) t n ht hsrc ha hex
  have h3 : toolView n ((ta ++ t :: tb).foldl (processTool d) st)
      = ((toolView n st).1 ++ [t], some d.path, (toolView n st).2.2) := by
    rw [List.foldl_append, List.foldl_cons]
    rw [toolsFold_view_neutral d n hv tb _ hnb, h2, h1]
  simp only [processToolsFile]
  cases ms with
  | none => simpa using h3
  | some servers =>
    simpa [serverFold_tool_frame] using h3

theorem processToolsFile_view_collide (d : PowerRefData) (st : MergeState)
    (n src : String) (ta tb : List ToolDef) (t : ToolDef)
    (ms : Option (List (String × ℕ)))
    (ht : t.name = n) (hna : ∀ x ∈ ta, x.name ≠ n) (hnb : ∀ x ∈ tb, x.name ≠ n)
    (hex : n ∉ d.exclude_tools)
    (hv : ∀ kv ∈ d.tool_aliases, kv.2 ≠ n)
    (hst : (toolView n st).2.1 = some src) :
    toolView n (processToolsFile d st (some ⟨some (ta ++ t :: tb), ms⟩))
      = ((toolView n st).1, some src,
         (toolView n st).2.2 ++ [⟨n, [src, d.path], "unresolved", src⟩]) := by
  have h1 : toolView n (ta.foldl (processTool d) st) = toolView n st :=
    toolsFold_view_neutral d n hv ta st hna
  have hsrc : alookup (ta.foldl (processTool d) st).tool_sources n = some src := by
    have := congrArg (fun v => v.2.1) h1
    simp only [toolView] at this
    rw [this]
    simpa [toolView] using hst
  have h2 := processTool_view_collide d (ta.foldl (processTool d) st) t n src ht hsrc hex
  have h3 : toolView n ((ta ++ t :: tb).foldl (processTool d) st)
      = ((toolView n st).1, some src,
         (toolView n st).2.2 ++ [⟨n, [src, d.path], "unresolved", src⟩]) := by
    rw [List.foldl_append, List.foldl_cons]
    rw [toolsFold_view_neutral d n hv tb _ hnb, h2, h1]
  simp only [processToolsFile]
  cases ms with
  | none => simpa using h3
  | some servers =>
    simpa [serverFold_tool_frame] using h3

theorem processPower_view_insert (fs : FileSys) (agent_dir : String)
    (d : PowerRefData) (st : MergeState) (n : String) (ps : PowerSpec)
    (f : String) (ta tb : List ToolDef) (t : ToolDef)
    (ms : Option (List (String × ℕ)))
    (hd : fs.dirExists (agent_dir ++ "/" ++ d.path) = true)
    (hp : fs.powerSpecs (agent_dir ++ "/" ++ d.path) = some ps)
    (hf : ps.resources.tools_files = [f])
    (hy : fs.toolsYaml (agent_dir ++ "/" ++ d.path ++ "/" ++ f)
      = some ⟨some (ta ++ t :: tb), ms⟩)
    (ht : t.name = n) (hna : ∀ x ∈ ta, x.name ≠ n) (hnb : ∀ x ∈ tb, x.name ≠ n)
    (hex : n ∉ d.exclude_tools) (ha : alookup d.tool_aliases n = none)
    (hv : ∀ kv ∈ d.tool_aliases, kv.2 ≠ n)
    (hst : (toolView n st).2.1 = none) :
    toolView n (processPower fs agent_dir st d)
      = ((toolView n st).1 ++ [t], some d.path, (toolView n st).2.2) := by
  simp only [processPower, hd, if_true, hp, hf]
  rw [List.foldl_cons, List.foldl_nil]
  rw [hy]
  have hsteer := steeringFold_tool_frame fs (agent_dir ++ "/" ++ d.path) n
    ps.resources.steering_files st
  have hststeer : (toolView n (ps.resources.steering_files.foldl
      (processSteering fs (agent_dir ++ "/" ++ d.path)) st)).2.1 = none := by
    rw [hsteer]; exact hst
  rw [processToolsFile_view_insert d _ n ta tb t ms ht hna hnb hex ha hv hststeer,
    hsteer]

theorem processPower_view_collide (fs : FileSys) (agent_dir : String)
    (d : PowerRefData) (st : MergeState) (n src : String) (ps : PowerSpec)
    (f : String) (ta tb : List ToolDef) (t : ToolDef)
    (ms : Option (List (String × ℕ)))
    (hd : fs.dirExists (agent_dir ++ "/" ++ d.path) = true)
    (hp : fs.powerSpecs (agent_dir ++ "/" ++ d.path) = some ps)
    (hf : ps.resources.tools_files = [f])
    (hy : fs.toolsYaml (agent_dir ++ "/" ++ d.path ++ "/" ++ f)
      = some ⟨some (ta ++ t :: tb), ms⟩)
    (ht : t.name = n) (hna : ∀ x ∈ ta, x.name ≠ n) (hnb : ∀ x ∈ tb, x.name ≠ n)
    (hex : n ∉ d.exclude_tools)
    (hv : ∀ kv ∈ d.tool_aliases, kv.2 ≠ n)
    (hst : (toolView n st).2.1 = some src) :
    toolView n (processPower fs agent_dir st d)
      = ((toolView n st).1, some src,
         (toolView n st).2.2 ++ [⟨n, [src, d.path], "unresolved", src⟩]) := by
  simp only [processPower, hd, if_true, hp, hf]
  rw [List.foldl_cons, List.foldl_nil]
  rw [hy]
  have hsteer := steeringFold_tool_frame fs (agent_dir ++ "/" ++ d.path) n
    ps.resources.steering_files st
  have hststeer : (toolView n (ps.resources.steering_files.foldl
      (processSteering fs (agent_dir ++ "/" ++ d.path)) st)).2.1 = some src := by
    rw [hsteer]; exact hst
  rw [processToolsFile_view_collide d _ n src ta tb t ms ht hna hnb hex hv hststeer,
    hsteer]

/-- C1: merging two powers that, in declaration order, each contribute a
tool with the same name — the colliding name being neither excluded nor
aliased (in either direction) by either reference — produces exactly one
tool of that name in the merged list, namely the first power's
definition, and exactly one tool collision entry recording the name, both
power paths, resolution `"unresolved"` and `final_source` equal to the
first power's path. -/
theorem c1_tool_collision_first_writer_wins
    (fs : FileSys) (agent_dir n : String) (r1 r2 : PRef)
    (d1 d2 : PowerRefData) (ps1 ps2 : PowerSpec) (f1 f2 : String)
    (ts1a ts1b ts2a ts2b : List ToolDef) (t1 t2 : ToolDef)
    (ms1 ms2 : Option (List (String × ℕ)))
    (h1 : normalize_power_reference r1 = .dict d1)
    (h2 : normalize_power_reference r2 = .dict d2)
    (hd1 : fs.dirExists (agent_dir ++ "/" ++ d1.path) = true)
    (hd2 : fs.dirExists (agent_dir ++ "/" ++ d2.path) = true)
    (hp1 : fs.powerSpecs (agent_dir ++ "/" ++ d1.path) = some ps1)
    (hp2 : fs.powerSpecs (agent_dir ++ "/" ++ d2.path) = some ps2)
    (hf1 : ps1.resources.tools_files = [f1])
    (hf2 : ps2.resources.tools_files = [f2])
    (hy1 : fs.toolsYaml (agent_dir ++ "/" ++ d1.path ++ "/" ++ f1)
      = some ⟨some (ts1a ++ t1 :: ts1b), ms1⟩)
    (hy2 : fs.toolsYaml (agent_dir ++ "/" ++ d2.path ++ "/" ++ f2)
      = some ⟨some (ts2a ++ t2 :: ts2b), ms2⟩)
    (ht1 : t1.name = n) (ht2 : t2.name = n)
    (hna1 : ∀ x ∈ ts1a, x.name ≠ n) (hnb1 : ∀ x ∈ ts1b, x.name ≠ n)
    (hna2 : ∀ x ∈ ts2a, x.name ≠ n) (hnb2 : ∀ x ∈ ts2b, x.name ≠ n)
    (hx1 : n ∉ d1.exclude_tools) (hx2 : n ∉ d2.exclude_tools)
    (ha1 : alookup d1.tool_aliases n = none)
    (hv1 : ∀ kv ∈ d1.tool_aliases, kv.2 ≠ n)
    (hv2 : ∀ kv ∈ d2.tool_aliases, kv.2 ≠ n) :
    (mergePowerResources fs agent_dir [r1, r2]).map
        (fun res => res.tools.filter (fun t => t.name == n)) = .ok [t1]
    ∧ (mergePowerResources fs agent_dir [r1, r2]).map
        (fun res => res.collision_metadata.tool_collisions.filter
          (fun c => c.name == n))
      = .ok [⟨n, [d1.path, d2.path], "unresolved", d1.path⟩] := by
  have hrun : runRefs fs agent_dir initMergeState [r1, r2]
      = .ok (processPower fs agent_dir
          (processPower fs agent_dir initMergeState d1) d2) := by
    simp only [runRefs, stepRef, h1, h2]
  have hview0 : toolView n initMergeState = ([], none, []) := rfl
  have hview1 : toolView n (processPower fs agent_dir initMergeState d1)
      = ([t1], some d1.path, []) := by
    have h := processPower_view_insert fs agent_dir d1 initMergeState n ps1 f1
      ts1a ts1b t1 ms1 hd1 hp1 hf1 hy1 ht1 hna1 hnb1 hx1 ha1 hv1
      (by rw [hview0])
    rw [hview0] at h
    simpa using h
  have hview2 : toolView n (processPower fs agent_dir
      (processPower fs agent_dir initMergeState d1) d2)
      = ([t1], some d1.path, [⟨n, [d1.path, d2.path], "unresolved", d1.path⟩]) := by
    have h := processPower_view_collide fs agent_dir d2
      (processPower fs agent_dir initMergeState d1) n d1.path ps2 f2
      ts2a ts2b t2 ms2 hd2 hp2 hf2 hy2 ht2 hna2 hnb2 hx2 hv2
      (by rw [hview1])
    rw [hview1] at h
    simpa using h
  have htools := congrArg (fun v => v.1) hview2
  have hcols := congrArg (fun v => v.2.2) hview2
  simp only [toolView] at htools hcols
  constructor
  · simp [mergePowerResources, hrun, Except.map, htools]
  · simp [mergePowerResources, hrun, Except.map, hcols]

/-- A concrete two-power filesystem where both powers declare a tool
named `"read"`. -/
def fsC1 : FileSys :=
  ⟨fun _ => none,
   fun p => p == "a/p1" || p == "a/p2",
   fun p =>
     if p = "a/p1" then
       some ⟨⟨"pw1", "first demo power here"⟩, ⟨[], [], []⟩, ⟨[], ["t.yaml"]⟩⟩
     else if p = "a/p2" then
       some ⟨⟨"pw2", "second demo power here"⟩, ⟨[], [], []⟩, ⟨[], ["t.yaml"]⟩⟩
     else none,
   fun p =>
     if p = "a/p1/t.yaml" then some ⟨some [⟨"read", 1⟩], none⟩
     else if p = "a/p2/t.yaml" then some ⟨some [⟨"read", 2⟩], none⟩
     else none,
   fun _ => none⟩

/-- C1 witness: the spec's `"read"`-collision example evaluated on
`fsC1`. -/
theorem c1_witness :
    fsC1.toolsYaml "a/p1/t.yaml" = some ⟨some [⟨"read", 1⟩], none⟩
    ∧ fsC1.toolsYaml "a/p2/t.yaml" = some ⟨some [⟨"read", 2⟩], none⟩
    ∧ (mergePowerResources fsC1 "a" [.str "p1", .str "p2"]).map
        (fun res => res.tools.filter (fun t => t.name == "read")) = .ok [⟨"read", 1⟩]
    ∧ (mergePowerResources fsC1 "a" [.str "p1", .str "p2"]).map
        (fun res => res.collision_metadata.tool_collisions.filter
          (fun c => c.name == "read"))
      = .ok [⟨"read", ["p1", "p2"], "unresolved", "p1"⟩] := by
  refine ⟨by decide, by decide, ?_, ?_⟩
  · exact (c1_tool_collision_first_writer_wins fsC1 "a" "read"
      (.str "p1") (.str "p2") ⟨"p1", [], [], [], []⟩ ⟨"p2", [], [], [], []⟩
      ⟨⟨"pw1", "first demo power here"⟩, ⟨[], [], []⟩, ⟨[], ["t.yaml"]⟩⟩
      ⟨⟨"pw2", "second demo power here"⟩, ⟨[], [], []⟩, ⟨[], ["t.yaml"]⟩⟩
      "t.yaml" "t.yaml" [] [] [] [] ⟨"read", 1⟩ ⟨"read", 2⟩ none none
      rfl rfl (by decide) (by decide) (by decide) (by decide) rfl rfl
      (by decide) (by decide) rfl rfl (by decide) (by decide) (by decide)
      (by decide) (by decide) (by decide) rfl (by decide) (by decide)).1
  · exact (c1_tool_collision_first_writer_wins fsC1 "a" "read"
      (.str "p1") (.str "p2") ⟨"p1", [], [], [], []⟩ ⟨"p2", [], [], [], []⟩
      ⟨⟨"pw1", "first demo power here"⟩, ⟨[], [], []⟩, ⟨[], ["t.yaml"]⟩⟩
      ⟨⟨"pw2", "second demo power here"⟩, ⟨[], [], []⟩, ⟨[], ["t.yaml"]⟩⟩
      "t.yaml" "t.yaml" [] [] [] [] ⟨"read", 1⟩ ⟨"read", 2⟩ none none
      rfl rfl (by decide) (by decide) (by decide) (by decide) rfl rfl
      (by decide) (by decide) rfl rfl (by decide) (by decide) (by decide)
      (by decide) (by decide) (by decide) rfl (by decide) (by decide)).2

/-! ## Merge engine (C2): server bindings without aliases -/

/-- A reference that carries no server-alias mapping (bare strings
normalize to an empty mapping; a pydantic model instance is excluded
because the merge cannot subscript it at all). -/
def serverAliasFree : PRef → Prop
  | .str _ => True
  | .dict d => d.server_aliases = []
  | .model _ => False

/-- Invariant of `_merge_power_resources`: every key of the merged server
map has a recorded source.  Alias-free processing maintains it; an alias
can break it by inserting under a final name different from the checked
name. -/
def ServerInv (st : MergeState) : Prop :=
  ∀ k, (alookup st.merged_servers k).isSome → (alookup st.server_sources k).isSome

theorem serverInv_init : ServerInv initMergeState := by
  intro k h
  simp [initMergeState, alookup] at h

theorem processServer_serverInv (d : PowerRefData) (hal : d.server_aliases = [])
    (st : MergeState) (kv : String × ℕ) (hInv : ServerInv st) :
    ServerInv (processServer d st kv)
    ∧ ∀ nm cfg, alookup st.merged_servers nm = some cfg →
      alookup (processServer d st kv).merged_servers nm = some cfg := by
  unfold processServer
  cases hs : alookup st.server_sources kv.1 with
  | some src =>
    exact ⟨hInv, fun nm cfg h => h⟩
  | none =>
    have hfinal : (alookup d.server_aliases kv.1).getD kv.1 = kv.1 := by
      rw [hal]; rfl
    rw [hfinal]
    constructor
    · intro k hk
      by_cases hkk : kv.1 = k
      · subst hkk
        simp [alookup_aset_self]
      · rw [alookup_aset_ne _ _ hkk] at hk
        rw [alookup_aset_ne _ _ hkk]
        exact hInv k hk
    · intro nm cfg h
      by_cases hkk : kv.1 = nm
      · subst hkk
        have : (alookup st.server_sources kv.1).isSome := by
          apply hInv
          rw [h]
          rfl
        rw [hs] at this
        simp at this
      · rw [alookup_aset_ne _ _ hkk]
        exact h

theorem serverFold_serverInv (d : PowerRefData) (hal : d.server_aliases = []) :
    ∀ (ms : List (String × ℕ)) (st : MergeState), ServerInv st →
    ServerInv (ms.foldl (processServer d) st)
    ∧ ∀ nm cfg, alookup st.merged_servers nm = some cfg →
      alookup ((ms.foldl (processServer d) st)).merged_servers nm = some cfg := by
  intro ms
  induction ms with
  | nil => intro st h; exact ⟨h, fun _ _ hb => hb⟩
  | cons kv rest ih =>
    intro st h
    have h1 := processServer_serverInv d hal st kv h
    have h2 := ih (processServer d st kv) h1.1
    exact ⟨h2.1, fun nm cfg hb => h2.2 nm cfg (h1.2 nm cfg hb)⟩

/-- Tool processing never touches the server fields. -/
theorem processTool_serverObs (d : PowerRefData) (st : MergeState)
    (t : ToolDef) :
    (processTool d st t).merged_servers = st.merged_servers
    ∧ (processTool d st t).server_sources = st.server_sources := by
  unfold processTool processToolTail
  split
  · split_ifs
    · split <;> (dsimp only; split_ifs <;> exact ⟨rfl, rfl⟩)
    · exact ⟨rfl, rfl⟩
  · split <;> (dsimp only; split_ifs <;> exact ⟨rfl, rfl⟩)

theorem toolsFold_serverObs (d : PowerRefData) :
    ∀ (ts : List ToolDef) (st : MergeState),
    ((ts.foldl (processTool d) st)).merged_servers = st.merged_servers
    ∧ ((ts.foldl (processTool d) st)).server_sources = st.server_sources := by
  intro ts
  induction ts with
  | nil => intro st; exact ⟨rfl, rfl⟩
  | cons t rest ih =>
    intro st
    have h1 := processTool_serverObs d st t
    have h2 := ih (processTool d st t)
    exact ⟨h1.1 ▸ h2.1, h1.2 ▸ h2.2⟩

theorem processSteering_serverObs (fs : FileSys) (power_dir : String)
    (st : MergeState) (sf : String) :
    (processSteering fs power_dir st sf).merged_servers = st.merged_servers
    ∧ (processSteering fs power_dir st sf).server_sources = st.server_sources := by
  unfold processSteering
  split <;> exact ⟨rfl, rfl⟩

theorem steeringFold_serverObs (fs : FileSys) (power_dir : String) :
    ∀ (sfs : List String) (st : MergeState),
    ((sfs.foldl (processSteering fs power_dir) st)).merged_servers = st.merged_servers
    ∧ ((sfs.foldl (processSteering fs power_dir) st)).server_sources = st.server_sources := by
  intro sfs
  induction sfs with
  | nil => intro st; exact ⟨rfl, rfl⟩
  | cons sf rest ih =>
    intro st
    have h1 := processSteering_serverObs fs power_dir st sf
    have h2 := ih (processSteering fs power_dir st sf)
    exact ⟨h1.1 ▸ h2.1, h1.2 ▸ h2.2⟩

theorem serverInv_of_serverObs {st st2 : MergeState}
    (hm : st2.merged_servers = st.merged_servers)
    (hs : st2.server_sources = st.server_sources) (h : ServerInv st) :
    ServerInv st2 := by
  intro k
  rw [hm, hs]
  exact h k

theorem processToolsFile_serverInv (d : PowerRefData)
    (hal : d.server_aliases = []) (st : MergeState)
    (tf : Option ToolsFileData) (hInv : ServerInv st) :
    ServerInv (processToolsFile d st tf)
    ∧ ∀ nm cfg, alookup st.merged_servers nm = some cfg →
      alookup ((processToolsFile d st tf)).merged_servers nm = some cfg := by
  cases tf with
  | none => exact ⟨hInv, fun _ _ h => h⟩
  | some data =>
    simp only [processToolsFile]
    cases hts : data.tools with
    | none =>
      cases hms : data.mcpServers with
      | none => exact ⟨hInv, fun _ _ h => h⟩
      | some ms => exact serverFold_serverInv d hal ms st hInv
    | some ts =>
      have hobs := toolsFold_serverObs d ts st
      have hInv2 : ServerInv (ts.foldl (processTool d) st) :=
        serverInv_of_serverObs hobs.1 hobs.2 hInv
      cases hms : data.mcpServers with
      | none =>
        refine ⟨hInv2, ?_⟩
        intro nm cfg h
        rw [hobs.1]
        exact h
      | some ms =>
        have h2 := serverFold_serverInv d hal ms (ts.foldl (processTool d) st) hInv2
        refine ⟨h2.1, ?_⟩
        intro nm cfg h
        apply h2.2
        rw [hobs.1]
        exact h

theorem processPower_serverInv (fs : FileSys) (agent_dir : String)
    (d : PowerRefData) (hal : d.server_aliases = []) (st : MergeState)
    (hInv : ServerInv st) :
    ServerInv (processPower fs agent_dir st d)
    ∧ ∀ nm cfg, alookup st.merged_servers nm = some cfg →
      alookup ((processPower fs agent_dir st d)).merged_servers nm = some cfg := by
  unfold processPower
  dsimp only
  split_ifs with hd
  · cases hp : fs.powerSpecs (agent_dir ++ "/" ++ d.path) with
    | none => exact ⟨hInv, fun _ _ h => h⟩
    | some ps =>
      have hobs := steeringFold_serverObs fs (agent_dir ++ "/" ++ d.path)
        ps.resources.steering_files st
      have hInv1 : ServerInv (ps.resources.steering_files.foldl
          (processSteering fs (agent_dir ++ "/" ++ d.path)) st) :=
        serverInv_of_serverObs hobs.1 hobs.2 hInv
      have main : ∀ (tfs : List String) (st0 : MergeState), ServerInv st0 →
          ServerInv (tfs.foldl (fun s tf => processToolsFile d s
            (fs.toolsYaml (agent_dir ++ "/" ++ d.path ++ "/" ++ tf))) st0)
          ∧ ∀ nm cfg, alookup st0.merged_servers nm = some cfg →
            alookup ((tfs.foldl (fun s tf => processToolsFile d s
              (fs.toolsYaml (agent_dir ++ "/" ++ d.path ++ "/" ++ tf))) st0)).merged_servers nm
              = some cfg := by
        intro tfs
        induction tfs with
        | nil => intro st0 h; exact ⟨h, fun _ _ hb => hb⟩
        | cons tf rest ih =>
          intro st0 h
          have h1 := processToolsFile_serverInv d hal st0
            (fs.toolsYaml (agent_dir ++ "/" ++ d.path ++ "/" ++ tf)) h
          have h2 := ih _ h1.1
          exact ⟨h2.1, fun nm cfg hb => h2.2 nm cfg (h1.2 nm cfg hb)⟩
      have hmain := main ps.resources.tools_files _ hInv1
      refine ⟨hmain.1, ?_⟩
      intro nm cfg h
      apply hmain.2
      rw [hobs.1]
      exact h
  · exact ⟨hInv, fun _ _ h => h⟩

theorem stepRef_serverInv (fs : FileSys) (agent_dir : String) (r : PRef)
    (hfree : serverAliasFree r) (st : MergeState) (hInv : ServerInv st) :
    ∃ st2, stepRef fs agent_dir st r = .ok st2 ∧ ServerInv st2
    ∧ ∀ nm cfg, alookup st.merged_servers nm = some cfg →
      alookup st2.merged_servers nm = some cfg := by
  cases r with
  | str p =>
    refine ⟨_, rfl, ?_⟩
    exact processPower_serverInv fs agent_dir ⟨p, [], [], [], []⟩ rfl st hInv
  | dict d =>
    refine ⟨_, rfl, ?_⟩
    exact processPower_serverInv fs agent_dir d hfree st hInv
  | model d => exact absurd hfree (by simp [serverAliasFree])

theorem runRefs_serverInv (fs : FileSys) (agent_dir : String) :
    ∀ (refs : List PRef) (st : MergeState),
    (∀ r ∈ refs, serverAliasFree r) → ServerInv st →
    ∃ st2, runRefs fs agent_dir st refs = .ok st2 ∧ ServerInv st2
    ∧ ∀ nm cfg, alookup st.merged_servers nm = some cfg →
      alookup st2.merged_servers nm = some cfg := by
  intro refs
  induction refs with
  | nil => intro st _ hInv; exact ⟨st, rfl, hInv, fun _ _ h => h⟩
  | cons r rest ih =>
    intro st hfree hInv
    obtain ⟨st1, hstep, hInv1, hbind1⟩ :=
      stepRef_serverInv fs agent_dir r (hfree r (List.mem_cons_self _ _)) st hInv
    obtain ⟨st2, hrun, hInv2, hbind2⟩ :=
      ih st1 (fun x hx => hfree x (List.mem_cons_of_mem _ hx)) hInv1
    refine ⟨st2, ?_, hInv2, fun nm cfg h => hbind2 nm cfg (hbind1 nm cfg h)⟩
    rw [runRefs, hstep]
    exact hrun

theorem runRefs_append (fs : FileSys) (agent_dir : String) :
    ∀ (l1 l2 : List PRef) (st : MergeState),
    runRefs fs agent_dir st (l1 ++ l2)
      = match runRefs fs agent_dir st l1 with
        | .ok st1 => runRefs fs agent_dir st1 l2
        | .error e => .error e := by
  intro l1
  induction l1 with
  | nil => intro l2 st; rfl
  | cons r rest ih =>
    intro l2 st
    rw [List.cons_append, runRefs, runRefs]
    cases hstep : stepRef fs agent_dir st r with
    | ok st1 => exact ih l2 st1
    | error e => rfl

/-- C2 (amended): in a merge whose power references carry no server-alias
mappings, the merged `mcpServers` map never rebinds — once a name is
bound by an earlier reference it keeps that config after any later
references are processed — and a server arriving under an
already-recorded name is dropped, appending exactly one collision entry
with resolution `"unresolved"` and `final_source` the recorded first
writer.  (With a server alias the original claim fails: the collision
check uses the incoming name while the insertion uses the aliased final
name, so a later reference can overwrite an earlier binding silently;
see the counterexample.) -/
theorem c2_server_first_writer_wins_without_aliases :
    (∀ (fs : FileSys) (agent_dir : String) (refs1 refs2 : List PRef)
      (st1 : MergeState) (nm : String) (cfg : ℕ),
      (∀ r ∈ refs1 ++ refs2, serverAliasFree r) →
      runRefs fs agent_dir initMergeState refs1 = .ok st1 →
      alookup st1.merged_servers nm = some cfg →
      (runRefs fs agent_dir initMergeState (refs1 ++ refs2)).map
        (fun st => alookup st.merged_servers nm) = .ok (some cfg))
    ∧ (∀ (d : PowerRefData) (st : MergeState) (nm : String) (cfg : ℕ)
        (src : String),
      alookup st.server_sources nm = some src →
      processServer d st (nm, cfg)
        = { st with server_collisions := st.server_collisions
            ++ [⟨nm, [src, d.path], "unresolved", src⟩] }) := by
  constructor
  · intro fs agent_dir refs1 refs2 st1 nm cfg hfree hrun1 hbind
    have hfree1 : ∀ r ∈ refs1, serverAliasFree r :=
      fun r hr => hfree r (List.mem_append_left _ hr)
    have hfree2 : ∀ r ∈ refs2, serverAliasFree r :=
      fun r hr => hfree r (List.mem_append_right _ hr)
    obtain ⟨st1b, hrun1b, hInv1, hb1⟩ :=
      runRefs_serverInv fs agent_dir refs1 initMergeState hfree1 serverInv_init
    rw [hrun1] at hrun1b
    injection hrun1b with heq
    subst heq
    obtain ⟨st2, hrun2, hInv2, hbind2⟩ :=
      runRefs_serverInv fs agent_dir refs2 st1 hfree2 hInv1
    rw [runRefs_append, hrun1]
    simp only [hrun2, Except.map]
    rw [hbind2 nm cfg hbind]
  · intro d st nm cfg src h
    simp [processServer, h]

/-- A concrete filesystem where the first power declares server `"s"` and
the second declares server `"t"` with a server alias `t -> s`. -/
def fsC2 : FileSys :=
  ⟨fun _ => none,
   fun p => p == "a/p1" || p == "a/p2",
   fun p =>
     if p = "a/p1" then
       some ⟨⟨"pw1", "first server power"⟩, ⟨[], [], []⟩, ⟨[], ["t.yaml"]⟩⟩
     else if p = "a/p2" then
       some ⟨⟨"pw2", "second server power"⟩, ⟨[], [], []⟩, ⟨[], ["t.yaml"]⟩⟩
     else none,
   fun p =>
     if p = "a/p1/t.yaml" then some ⟨none, some [("s", 1)]⟩
     else if p = "a/p2/t.yaml" then some ⟨none, some [("t", 2)]⟩
     else none,
   fun _ => none⟩

/-- C2 counterexample: the first reference binds server `"s"` to config
`1`; a later reference whose server alias maps its fresh name `"t"` onto
`"s"` silently overwrites the binding to config `2` and records no server
collision — so the merged map does not keep the earliest writer's config
and a later reference does overwrite an existing entry. -/
theorem c2_counterexample :
    (mergePowerResources fsC2 "a" [.str "p1"]).map
      (fun res => alookup res.mcp_servers "s") = .ok (some 1)
    ∧ (mergePowerResources fsC2 "a"
        [.str "p1", .dict ⟨"p2", [], [], [("t", "s")], []⟩]).map
      (fun res => alookup res.mcp_servers "s") = .ok (some 2)
    ∧ (mergePowerResources fsC2 "a"
        [.str "p1", .dict ⟨"p2", [], [], [("t", "s")], []⟩]).map
      (fun res => res.collision_metadata.server_collisions) = .ok [] := by
  refine ⟨by decide, by decide, by decide⟩

/-- C2 witness: the amended theorem applied to two alias-free references
and to a concrete collision. -/
theorem c2_witness :
    serverAliasFree (PRef.str "p1") ∧ serverAliasFree (PRef.str "p2")
    ∧ runRefs fsC2 "a" initMergeState [.str "p1"]
      = .ok ⟨[], [("s", 1)], [], [], [], [], [("s", "p1")]⟩
    ∧ (runRefs fsC2 "a" initMergeState ([.str "p1"] ++ [.str "p2"])).map
        (fun st => alookup st.merged_servers "s") = .ok (some 1)
    ∧ processServer ⟨"p2", [], [], [], []⟩
        ⟨[], [("s", 1)], [], [], [], [], [("s", "p1")]⟩ ("s", 5)
      = ⟨[], [("s", 1)], [], [],
          [⟨"s", ["p1", "p2"], "unresolved", "p1"⟩], [], [("s", "p1")]⟩ := by
  refine ⟨trivial, trivial, by decide, ?_, ?_⟩
  · apply c2_server_first_writer_wins_without_aliases.1 fsC2 "a"
      [.str "p1"] [.str "p2"] ⟨[], [("s", 1)], [], [], [], [], [("s", "p1")]⟩
      "s" 1 ?_ (by decide) (by decide)
    intro r hr
    rcases List.mem_cons.mp hr with rfl | hr2
    · trivial
    · rcases List.mem_cons.mp hr2 with rfl | h2
      · trivial
      · simp at h2
  · have h := c2_server_first_writer_wins_without_aliases.2
      ⟨"p2", [], [], [], []⟩ ⟨[], [("s", 1)], [], [], [], [], [("s", "p1")]⟩
      "s" 5 "p1" (by decide)
    exact h.trans (by decide)

/-! ## Merge engine (C3): aliasing semantics and the pydantic model bug -/

/-- A one-power filesystem whose tools file declares a tool `"read"`. -/
def fsC3 : FileSys :=
  ⟨fun _ => none,
   fun p => p == "a/p",
   fun p =>
     if p = "a/p" then
       some ⟨⟨"pw", "aliasing demo power"⟩, ⟨[], [], []⟩, ⟨[], ["t.yaml"]⟩⟩
     else none,
   fun p => if p = "a/p/t.yaml" then some ⟨some [⟨"read", 7⟩], none⟩ else none,
   fun _ => none⟩

/-- C3: the tool-alias semantics of `_merge_power_resources` evaluated on
concrete references.  With a plain reference record the alias renames the
merged tool, `tool_sources` records the aliased name (not the original),
and the exclude-list check applies to the aliased name — excluding
`"read2"` skips the aliased tool while excluding the original `"read"`
does not.  But the same reference supplied as a constructed pydantic
`PowerReference` makes the merge raise `TypeError` at
`power_data["path"]` (models are not subscriptable), so a structured
reference does not behave like the equivalent plain record: the code
crashes where the spec promises identical behaviour. -/
theorem c3_alias_semantics_and_model_reference_crash :
    mergePowerResources fsC3 "a" [.model ⟨"p", [], [("read", "read2")], [], []⟩]
      = .error "TypeError: PowerReference object is not subscriptable"
    ∧ (runRefs fsC3 "a" initMergeState
        [.dict ⟨"p", [], [("read", "read2")], [], []⟩]).map
        (fun st => (st.merged_tools, alookup st.tool_sources "read2",
          alookup st.tool_sources "read"))
      = .ok ([⟨"read2", 7⟩], some "p", none)
    ∧ (runRefs fsC3 "a" initMergeState
        [.dict ⟨"p", ["read2"], [("read", "read2")], [], []⟩]).map
        (fun st => st.merged_tools) = .ok []
    ∧ (runRefs fsC3 "a" initMergeState
        [.dict ⟨"p", ["read"], [("read", "read2")], [], []⟩]).map
        (fun st => st.merged_tools) = .ok [⟨"read2", 7⟩] :=
  ⟨by decide, by decide, by decide, by decide⟩

/-! ## Export error handling (C6) -/

theorem stepRef_missing_dir (fs : FileSys) (agent_dir : String) (r : PRef)
    (hs : r.subscriptable = true)
    (hd : fs.dirExists (agent_dir ++ "/" ++ r.pathOf) = false)
    (st : MergeState) : stepRef fs agent_dir st r = .ok st := by
  cases r with
  | str p =>
    simp only [stepRef, normalize_power_reference, processPower]
    simp only [PRef.pathOf] at hd
    rw [hd]
    rfl
  | dict d =>
    simp only [stepRef, normalize_power_reference, processPower]
    simp only [PRef.pathOf] at hd
    rw [hd]
    rfl
  | model d => simp [PRef.subscriptable] at hs

theorem stepRef_ok_of_subscriptable (fs : FileSys) (agent_dir : String)
    (r : PRef) (hs : r.subscriptable = true) (st : MergeState) :
    ∃ st2, stepRef fs agent_dir st r = .ok st2 := by
  cases r with
  | str p => exact ⟨_, rfl⟩
  | dict d => exact ⟨_, rfl⟩
  | model d => simp [PRef.subscriptable] at hs

theorem runRefs_ok_of_subscriptable (fs : FileSys) (agent_dir : String) :
    ∀ (refs : List PRef) (st : MergeState),
    (∀ x ∈ refs, x.subscriptable = true) →
    ∃ st2, runRefs fs agent_dir st refs = .ok st2 := by
  intro refs
  induction refs with
  | nil => intro st _; exact ⟨st, rfl⟩
  | cons r rest ih =>
    intro st hsub
    obtain ⟨st1, hst1⟩ := stepRef_ok_of_subscriptable fs agent_dir r
      (hsub r (List.mem_cons_self _ _)) st
    obtain ⟨st2, hst2⟩ := ih st1 (fun x hx => hsub x (List.mem_cons_of_mem _ hx))
    refine ⟨st2, ?_⟩
    rw [runRefs, hst1]
    exact hst2

theorem runRefs_remove_missing (fs : FileSys) (agent_dir : String) (r : PRef)
    (hs : r.subscriptable = true)
    (hd : fs.dirExists (agent_dir ++ "/" ++ r.pathOf) = false) :
    ∀ (l1 l2 : List PRef) (st : MergeState),
    runRefs fs agent_dir st (l1 ++ r :: l2)
      = runRefs fs agent_dir st (l1 ++ l2) := by
  intro l1
  induction l1 with
  | nil =>
    intro l2 st
    rw [List.nil_append, List.nil_append, runRefs,
      stepRef_missing_dir fs agent_dir r hs hd st]
  | cons x rest ih =>
    intro l2 st
    rw [List.cons_append, List.cons_append, runRefs, runRefs]
    cases hstep : stepRef fs agent_dir st x with
    | ok st1 => exact ih l2 st1
    | error e => rfl

theorem sourcePaths_ok (refs : List PRef)
    (hsub : ∀ x ∈ refs, x.subscriptable = true) :
    sourcePaths refs = .ok (refs.map PRef.pathOf) := by
  induction refs with
  | nil => rfl
  | cons r rest ih =>
    have hr : (normalize_power_reference r).getPath = .ok r.pathOf := by
      cases r with
      | str p => rfl
      | dict d => rfl
      | model d =>
        have := hsub (.model d) (List.mem_cons_self _ _)
        simp [PRef.subscriptable] at this
    rw [sourcePaths, hr, ih (fun x hx => hsub x (List.mem_cons_of_mem _ hx))]
    rfl

/-- C6: `export_agent_to_kiro_json` fails with a fatal export error
whenever the agent's own system-prompt file is missing; and a power
reference whose resolved power directory does not exist leaves the export
successful and contributes nothing — the exported tools, MCP servers,
prompt (hence steering) and collision metadata are identical to the
export without that reference.  (The subscriptability hypothesis keeps
the references in the `str | dict` domain that `normalize_power_reference`
declares; constructed pydantic references crash independently, see C3.) -/
theorem c6_missing_prompt_fatal_missing_power_skipped :
    (∀ (fs : FileSys) (agent_dir : String) (spec : AgentSpecM),
      fs.fileContents (agent_dir ++ "/" ++ spec.identity.prompt_file) = none →
      export_agent_to_kiro_json fs agent_dir spec
        = .error ("System prompt file not found: " ++ spec.identity.prompt_file))
    ∧ (∀ (fs : FileSys) (agent_dir : String) (spec : AgentSpecM)
        (l1 l2 : List PRef) (r : PRef) (p : String),
      spec.powers = l1 ++ r :: l2 →
      fs.fileContents (agent_dir ++ "/" ++ spec.identity.prompt_file) = some p →
      (∀ x ∈ spec.powers, x.subscriptable = true) →
      fs.dirExists (agent_dir ++ "/" ++ r.pathOf) = false →
      exceptOk (export_agent_to_kiro_json fs agent_dir spec) = true
      ∧ (export_agent_to_kiro_json fs agent_dir spec).map (fun o => o.tools)
        = (export_agent_to_kiro_json fs agent_dir
            { spec with powers := l1 ++ l2 }).map (fun o => o.tools)
      ∧ (export_agent_to_kiro_json fs agent_dir spec).map (fun o => o.mcpServers)
        = (export_agent_to_kiro_json fs agent_dir
            { spec with powers := l1 ++ l2 }).map (fun o => o.mcpServers)
      ∧ (export_agent_to_kiro_json fs agent_dir spec).map (fun o => o.prompt)
        = (export_agent_to_kiro_json fs agent_dir
            { spec with powers := l1 ++ l2 }).map (fun o => o.prompt)
      ∧ (export_agent_to_kiro_json fs agent_dir spec).map
            (fun o => o.collision_resolution)
        = (export_agent_to_kiro_json fs agent_dir
            { spec with powers := l1 ++ l2 }).map
            (fun o => o.collision_resolution)) := by
  constructor
  · intro fs agent_dir spec hnone
    simp [export_agent_to_kiro_json, hnone]
  · intro fs agent_dir spec l1 l2 r p hpowers hp hsub hd
    have hrsub : r.subscriptable = true := by
      apply hsub
      rw [hpowers]
      exact List.mem_append_right _ (List.mem_cons_self _ _)
    have hsub2 : ∀ x ∈ l1 ++ l2, x.subscriptable = true := by
      intro x hx
      apply hsub
      rw [hpowers]
      rcases List.mem_append.mp hx with h | h
      · exact List.mem_append_left _ h
      · exact List.mem_append_right _ (List.mem_cons_of_mem _ h)
    obtain ⟨stf, hstf⟩ := runRefs_ok_of_subscriptable fs agent_dir (l1 ++ l2)
      initMergeState hsub2
    have hrun1 : runRefs fs agent_dir initMergeState spec.powers = .ok stf := by
      rw [hpowers, runRefs_remove_missing fs agent_dir r hrsub hd]
      exact hstf
    have hm1 : mergePowerResources fs agent_dir spec.powers
        = .ok ⟨stf.merged_tools, stf.merged_servers, stf.steering_content,
          ⟨stf.tool_collisions, stf.server_collisions, []⟩⟩ := by
      simp [mergePowerResources, hrun1, Except.map]
    have hm2 : mergePowerResources fs agent_dir (l1 ++ l2)
        = .ok ⟨stf.merged_tools, stf.merged_servers, stf.steering_content,
          ⟨stf.tool_collisions, stf.server_collisions, []⟩⟩ := by
      simp [mergePowerResources, hstf, Except.map]
    have hsp1 : sourcePaths spec.powers = .ok (spec.powers.map PRef.pathOf) :=
      sourcePaths_ok _ hsub
    have hsp2 : sourcePaths (l1 ++ l2) = .ok ((l1 ++ l2).map PRef.pathOf) :=
      sourcePaths_ok _ hsub2
    refine ⟨?_, ?_, ?_, ?_, ?_⟩ <;>
      simp [export_agent_to_kiro_json, hp, hm1, hm2, hsp1, hsp2, Except.map,
        exceptOk]

/-- A filesystem with the agent prompt at `a/prompt.md` and one existing
power `p1`; no directory named `missing` exists. -/
def fsC6 : FileSys :=
  ⟨fun p => if p = "a/prompt.md" then some "You are an agent." else none,
   fun p => p == "a/p1",
   fun p =>
     if p = "a/p1" then
       some ⟨⟨"pw1", "first demo power here"⟩, ⟨[], [], []⟩, ⟨[], ["t.yaml"]⟩⟩
     else none,
   fun p =>
     if p = "a/p1/t.yaml" then some ⟨some [⟨"read", 1⟩], some [("s", 4)]⟩
     else none,
   fun _ => none⟩

/-- The concrete agent spec used by the C6 witness: one existing power
and one reference to a missing directory. -/
def specC6 : AgentSpecM :=
  ⟨⟨"agent1", "a demo agent spec okay", "1.0.0"⟩, ⟨"prompt.md", []⟩,
   [.str "p1", .str "missing"], ⟨[], [], false, false, none⟩⟩

/-- C6 witness: the same spec exported from a directory with no prompt
file fails fatally, and from `a` the missing power reference contributes
nothing. -/
theorem c6_witness :
    fsC6.fileContents ("b" ++ "/" ++ "prompt.md") = none
    ∧ export_agent_to_kiro_json fsC6 "b" specC6
      = .error ("System prompt file not found: " ++ "prompt.md")
    ∧ fsC6.dirExists ("a" ++ "/" ++ (PRef.str "missing").pathOf) = false
    ∧ exceptOk (export_agent_to_kiro_json fsC6 "a" specC6) = true
    ∧ (export_agent_to_kiro_json fsC6 "a" specC6).map (fun o => o.tools)
      = (export_agent_to_kiro_json fsC6 "a"
          { specC6 with powers := [PRef.str "p1"] ++ [] }).map (fun o => o.tools)
    ∧ (export_agent_to_kiro_json fsC6 "a" specC6).map (fun o => o.prompt)
      = (export_agent_to_kiro_json fsC6 "a"
          { specC6 with powers := [PRef.str "p1"] ++ [] }).map (fun o => o.prompt) := by
  refine ⟨by decide, ?_, by decide, ?_, ?_, ?_⟩
  · exact c6_missing_prompt_fatal_missing_power_skipped.1 fsC6 "b" specC6 (by decide)
  · exact (c6_missing_prompt_fatal_missing_power_skipped.2 fsC6 "a" specC6
      [PRef.str "p1"] [] (PRef.str "missing") "You are an agent."
      rfl (by decide) (by decide) (by decide)).1
  · exact (c6_missing_prompt_fatal_missing_power_skipped.2 fsC6 "a" specC6
      [PRef.str "p1"] [] (PRef.str "missing") "You are an agent."
      rfl (by decide) (by decide) (by decide)).2.1
  · exact (c6_missing_prompt_fatal_missing_power_skipped.2 fsC6 "a" specC6
      [PRef.str "p1"] [] (PRef.str "missing") "You are an agent."
      rfl (by decide) (by decide) (by decide)).2.2.2.1
